import Mathlib

/-
Verification of the client-side caching / pagination / search-state layer of
the rw-movies repository (src/pages/Movie.jsx, src/pages/TvShows.jsx,
src/components/ListItem.jsx, src/components/Pagination.jsx,
src/utils/StorageHandler.jsx).

Browser storage is modelled as an association list of string keys and string
values, in key-insertion order (the order `localStorage.key(i)` enumerates in
the browsers this app targets; keys are unique in every store the program
builds, so first-occurrence semantics below coincide with the host's).
Machine integers are modelled as `Int`/`Nat` (JS numbers are exact on the
integer ranges this code touches).  A fallible host call is modelled with
`Option`.  Host errors (quota exceeded) are modelled by an explicit capacity
on the store plus an error-descriptor value.
-/

namespace RwMovies

/-- `localStorage` contents: key/value pairs in enumeration order. -/
abbrev Store := List (String × String)

/-- `localStorage.getItem(k)`: `null` becomes `none`. -/
def getItem : Store → String → Option String
  | [], _ => none
  | e :: st, k => if e.1 = k then some e.2 else getItem st k

/-- `localStorage.removeItem(k)`. -/
def removeItem : Store → String → Store
  | [], _ => []
  | e :: st, k => if e.1 = k then removeItem st k else e :: removeItem st k

/-- `localStorage.setItem(k, v)` ignoring quota: overwrite in place, or append. -/
def setItem : Store → String → String → Store
  | [], k, v => [(k, v)]
  | e :: st, k, v => if e.1 = k then (k, v) :: st else e :: setItem st k v

/-- Bytes accounted to the store (key plus value lengths), used by the
capacity model of the storage quota. -/
def usage (st : Store) : Nat :=
  (st.map (fun e => e.1.length + e.2.length)).sum

/-- `localStorage.setItem` under a quota of `cap`: `none` models the thrown
quota-exceeded error. -/
def jsSetItem (cap : Nat) (st : Store) (k v : String) : Option Store :=
  let st' := setItem st k v
  if usage st' ≤ cap then some st' else none

/-- One decimal digit. -/
def digitVal (c : Char) : Option Nat :=
  if '0' ≤ c ∧ c ≤ '9' then some (c.toNat - '0'.toNat) else none

/-- Longest leading run of decimal digits; `none` when there is none
(JS `parseInt` then yields `NaN`). -/
def parseDigits : List Char → Option Nat → Option Nat
  | [], acc => acc
  | c :: cs, acc =>
    match digitVal c with
    | some d => parseDigits cs (some (acc.getD 0 * 10 + d))
    | none => acc

/-- `parseInt(s, 10)`: skip leading whitespace, optional sign, leading
digits; `none` models `NaN`. -/
def jsParseInt (s : String) : Option Int :=
  let cs := s.data.dropWhile (fun c => c == ' ' || c == '\t' || c == '\n' || c == '\r')
  match cs with
  | '-' :: rest => (parseDigits rest none).map (fun n => -(n : Int))
  | '+' :: rest => (parseDigits rest none).map (fun n => (n : Int))
  | _ => (parseDigits cs none).map (fun n => (n : Int))

/-- The fields of a thrown storage error that `storageManager.safeSet`
inspects. -/
structure JsError where
  name : String
  code : Int
deriving DecidableEq

/-- The quota-error test of `storageManager.safeSet` (Movie.jsx 30-32,
TvShows.jsx 26-28). -/
def isQuotaErrorPage (e : JsError) : Bool :=
  e.name == "QuotaExceededError" || e.code == 22 || e.code == 1014 ||
    e.name == "NS_ERROR_DOM_QUOTA_REACHED"

/-- One element of `keysToCheck` in `storageManager.clearOldCache`:
a cache key, its sibling timestamp key, and the parsed timestamp
(`none` models `NaN`). -/
structure CacheKeyEntry where
  key : String
  timestampKey : String
  time : Option Int
deriving DecidableEq

/-- The `keysToCheck` collection of `storageManager.clearOldCache`
(Movie.jsx 47-61): keys starting with `cached` or `searchCache_`, not ending
in `_timestamp`, whose sibling timestamp key holds a non-empty string. -/
def collectCacheKeys (st : Store) : List CacheKeyEntry :=
  st.filterMap (fun e =>
    if (e.1.startsWith "cached" || e.1.startsWith "searchCache_")
        && !(e.1.endsWith "_timestamp") then
      match getItem st (e.1 ++ "_timestamp") with
      | some ts => if ts ≠ "" then some ⟨e.1, e.1 ++ "_timestamp", jsParseInt ts⟩ else none
      | none => none
    else none)

/-- Comparator of the `keysToCheck.sort((a, b) => a.time - b.time)` call.
An unparseable timestamp (`NaN`, where the JS comparator result is treated
as a tie by the sort) is modelled as minimal; every theorem that depends on
the order assumes all timestamps parse, where the two semantics agree. -/
def timeLe (a b : CacheKeyEntry) : Prop :=
  match a.time, b.time with
  | some x, some y => x ≤ y
  | none, _ => True
  | some _, none => False

instance : DecidableRel timeLe := fun a b =>
  match a, b with
  | ⟨_, _, some x⟩, ⟨_, _, some y⟩ => inferInstanceAs (Decidable (x ≤ y))
  | ⟨_, _, none⟩, _ => inferInstanceAs (Decidable True)
  | ⟨_, _, some _⟩, ⟨_, _, none⟩ => inferInstanceAs (Decidable False)

instance : IsTotal CacheKeyEntry timeLe := by
  constructor
  intro a b
  rcases a with ⟨k1, t1, _ | x⟩ <;> rcases b with ⟨k2, t2, _ | y⟩ <;>
    simp [timeLe] <;> omega

instance : IsTrans CacheKeyEntry timeLe := by
  constructor
  intro a b c
  rcases a with ⟨k1, t1, _ | x⟩ <;> rcases b with ⟨k2, t2, _ | y⟩ <;>
    rcases c with ⟨k3, t3, _ | z⟩ <;> simp [timeLe] <;> omega

/-- `Math.ceil(n * 0.3)` (Movie.jsx 65).  For the list lengths arising here
the double-precision product rounds to `3n/10`, so the ceiling is `⌈3n/10⌉`. -/
def ceil30 (n : Nat) : Nat := (3 * n + 9) / 10

/-- Remove a run of cache entries, each together with its timestamp sibling,
as the eviction loop of `clearOldCache` does. -/
def removeEntries (st : Store) (l : List CacheKeyEntry) : Store :=
  l.foldl (fun s e => removeItem (removeItem s e.key) e.timestampKey) st

/-- `storageManager.clearOldCache` (Movie.jsx 46-70): collect cache keys with
timestamps, sort ascending by timestamp, remove the oldest `ceil(30%)`
together with their timestamp keys. -/
def clearOldCache (st : Store) : Store :=
  let sorted := List.insertionSort timeLe (collectCacheKeys st)
  removeEntries st (sorted.take (ceil30 sorted.length))

/-- `storageManager.safeSet` (Movie.jsx 24-44): try the write; on a
quota-exceeded error evict old cache entries and retry exactly once; report
success as a Bool, never rethrowing. -/
def safeSet (cap : Nat) (err : JsError) (st : Store) (k v : String) : Bool × Store :=
  match jsSetItem cap st k v with
  | some st1 => (true, st1)
  | none =>
    if isQuotaErrorPage err then
      let st1 := clearOldCache st
      match jsSetItem cap st1 k v with
      | some st2 => (true, st2)
      | none => (false, st1)
    else (false, st)

/-- Conclusion of claim C1, stated over the model of
`storageManager.safeSet`/`clearOldCache`. -/
def SafeSetQuotaSpec (cap : Nat) (err : JsError) (st : Store) (k v : String) : Prop :=
  (∀ st2, jsSetItem cap (clearOldCache st) k v = some st2 →
      safeSet cap err st k v = (true, st2)) ∧
  (jsSetItem cap (clearOldCache st) k v = none →
      safeSet cap err st k v = (false, clearOldCache st)) ∧
  (∀ e ∈ (List.insertionSort timeLe (collectCacheKeys st)).take
      (ceil30 (collectCacheKeys st).length),
    getItem (clearOldCache st) e.key = none ∧
    getItem (clearOldCache st) e.timestampKey = none) ∧
  (∀ k2, (∀ e ∈ (List.insertionSort timeLe (collectCacheKeys st)).take
      (ceil30 (collectCacheKeys st).length),
      k2 ≠ e.key ∧ k2 ≠ e.timestampKey) →
    getItem (clearOldCache st) k2 = getItem st k2) ∧
  (List.insertionSort timeLe (collectCacheKeys st)).Sorted timeLe ∧
  (List.insertionSort timeLe (collectCacheKeys st)).Perm (collectCacheKeys st) ∧
  ((List.insertionSort timeLe (collectCacheKeys st)).take
      (ceil30 (collectCacheKeys st).length)).length =
    ceil30 (collectCacheKeys st).length

/-- A concrete quota-exceeded run: capacity 6 bytes, two cache entries with
timestamps 50 and 100, a write that does not fit. -/
def c1Store : Store :=
  [("cachedMovies_1", "aa"), ("cachedMovies_1_timestamp", "100"),
   ("cachedMovies_2", "bb"), ("cachedMovies_2_timestamp", "50")]

/-! JSON values, `JSON.stringify` and `JSON.parse`.

JS numbers are modelled as integers: every number this code serialises
(timestamps, ids, page counts) is integral.  The parser is a fuel-indexed
recursive-descent parser for the integer fragment of JSON; a fractional or
exponent part makes it fail where the host parser would produce a float. -/
/-- The character with code `n` when `n` is a Unicode scalar value. -/
def mkChar (n : Nat) : Option Char :=
  if n.isValidChar then some (Char.ofNat n) else none

/-- Value of one hexadecimal digit (either case). -/
def hexVal (c : Char) : Option Nat :=
  if '0' ≤ c ∧ c ≤ '9' then some (c.toNat - 48)
  else if 'A' ≤ c ∧ c ≤ 'F' then some (c.toNat - 55)
  else if 'a' ≤ c ∧ c ≤ 'f' then some (c.toNat - 87)
  else none

/-- Lower-case hexadecimal digit (as in `\u00xx` escapes of `JSON.stringify`). -/
def hexLower (n : Nat) : Char :=
  if n < 10 then Char.ofNat (48 + n) else Char.ofNat (87 + n)

/-- Upper-case hexadecimal digit (as in `%XX` escapes of `encodeURIComponent`). -/
def hexUpper (n : Nat) : Char :=
  if n < 10 then Char.ofNat (48 + n) else Char.ofNat (55 + n)

def digitChar (n : Nat) : Char := Char.ofNat (48 + n)

/-- Decimal digits of `n`, most significant first (fuel-indexed). -/
def natDigits : Nat → Nat → List Char
  | 0, _ => []
  | fuel + 1, n =>
    if n < 10 then [digitChar n] else natDigits fuel (n / 10) ++ [digitChar (n % 10)]

def natToString (n : Nat) : String := ⟨natDigits (n + 1) n⟩

/-- JS `Number.prototype.toString` on an integral value. -/
def intToString (n : Int) : String :=
  if n < 0 then "-" ++ natToString n.natAbs else natToString n.natAbs

/-- JSON values (integer numbers only, see above). -/
inductive Json where
  | null
  | bool (b : Bool)
  | num (n : Int)
  | str (s : String)
  | arr (xs : List Json)
  | obj (fields : List (String × Json))

/-- Brace characters, named to keep them out of string literals. -/
def lbrace : String := "\x7b"

def rbrace : String := "\x7d"

/-- One character of a JSON string body, escaped as `JSON.stringify` does. -/
def escapeJsonChar (c : Char) : List Char :=
  if c = '"' then ['\\', '"']
  else if c = '\\' then ['\\', '\\']
  else if c.toNat = 8 then ['\\', 'b']
  else if c.toNat = 9 then ['\\', 't']
  else if c.toNat = 10 then ['\\', 'n']
  else if c.toNat = 12 then ['\\', 'f']
  else if c.toNat = 13 then ['\\', 'r']
  else if c.toNat < 32 then
    ['\\', 'u', '0', '0', hexLower (c.toNat / 16), hexLower (c.toNat % 16)]
  else [c]

def quoteJsonString (s : String) : String :=
  ⟨'"' :: ((s.data.map escapeJsonChar).flatten ++ ['"'])⟩

mutual

/-- `JSON.stringify` (no indentation, as the program calls it). -/
def jsonStringify : Json → String
  | Json.null => "null"
  | Json.bool true => "true"
  | Json.bool false => "false"
  | Json.num n => intToString n
  | Json.str s => quoteJsonString s
  | Json.arr xs => "[" ++ stringifyElems xs ++ "]"
  | Json.obj fs => lbrace ++ stringifyFields fs ++ rbrace

def stringifyElems : List Json → String
  | [] => ""
  | [x] => jsonStringify x
  | x :: y :: xs => jsonStringify x ++ "," ++ stringifyElems (y :: xs)

def stringifyFields : List (String × Json) → String
  | [] => ""
  | [(k, v)] => quoteJsonString k ++ ":" ++ jsonStringify v
  | (k, v) :: f :: fs =>
    quoteJsonString k ++ ":" ++ jsonStringify v ++ "," ++ stringifyFields (f :: fs)

end

def skipWs (cs : List Char) : List Char :=
  cs.dropWhile (fun c => c == ' ' || c == '\t' || c == '\n' || c == '\r')

def parseNatAux : List Char → Nat → Nat × List Char
  | [], acc => (acc, [])
  | c :: rest, acc =>
    if c.isDigit then parseNatAux rest (acc * 10 + (c.toNat - 48)) else (acc, c :: rest)

/-- A non-empty run of decimal digits. -/
def parseNatNum (cs : List Char) : Option (Nat × List Char) :=
  match cs with
  | c :: _ => if c.isDigit then some (parseNatAux cs 0) else none
  | [] => none

mutual

def parseValue : Nat → List Char → Option (Json × List Char)
  | 0, _ => none
  | fuel + 1, cs =>
    match skipWs cs with
    | 'n' :: 'u' :: 'l' :: 'l' :: rest => some (Json.null, rest)
    | 't' :: 'r' :: 'u' :: 'e' :: rest => some (Json.bool true, rest)
    | 'f' :: 'a' :: 'l' :: 's' :: 'e' :: rest => some (Json.bool false, rest)
    | '"' :: rest =>
      match parseStrBody fuel rest [] with
      | some (s, rest2) => some (Json.str s, rest2)
      | none => none
    | '[' :: rest =>
      match skipWs rest with
      | ']' :: rest2 => some (Json.arr [], rest2)
      | _ =>
        match parseElems fuel rest with
        | some (xs, rest2) => some (Json.arr xs, rest2)
        | none => none
    | '\x7b' :: rest =>
      match skipWs rest with
      | '\x7d' :: rest2 => some (Json.obj [], rest2)
      | _ =>
        match parseFields fuel rest with
        | some (fs, rest2) => some (Json.obj fs, rest2)
        | none => none
    | '-' :: rest =>
      match parseNatNum rest with
      | some (n, rest2) => some (Json.num (-(n : Int)), rest2)
      | none => none
    | c :: rest =>
      if c.isDigit then
        match parseNatNum (c :: rest) with
        | some (n, rest2) => some (Json.num (n : Int), rest2)
        | none => none
      else none
    | [] => none

def parseStrBody : Nat → List Char → List Char → Option (String × List Char)
  | 0, _, _ => none
  | fuel + 1, cs, acc =>
    match cs with
    | [] => none
    | '"' :: rest => some (⟨acc.reverse⟩, rest)
    | '\\' :: e :: rest =>
      if e = '"' then parseStrBody fuel rest ('"' :: acc)
      else if e = '\\' then parseStrBody fuel rest ('\\' :: acc)
      else if e = '/' then parseStrBody fuel rest ('/' :: acc)
      else if e = 'b' then parseStrBody fuel rest (Char.ofNat 8 :: acc)
      else if e = 'f' then parseStrBody fuel rest (Char.ofNat 12 :: acc)
      else if e = 'n' then parseStrBody fuel rest (Char.ofNat 10 :: acc)
      else if e = 'r' then parseStrBody fuel rest (Char.ofNat 13 :: acc)
      else if e = 't' then parseStrBody fuel rest (Char.ofNat 9 :: acc)
      else if e = 'u' then
        match rest with
        | h1 :: h2 :: h3 :: h4 :: rest2 =>
          match hexVal h1, hexVal h2, hexVal h3, hexVal h4 with
          | some a, some b, some c, some d =>
            match mkChar (((a * 16 + b) * 16 + c) * 16 + d) with
            | some ch => parseStrBody fuel rest2 (ch :: acc)
            | none => none
          | _, _, _, _ => none
        | _ => none
      else none
    | c :: rest => parseStrBody fuel rest (c :: acc)

def parseElems : Nat → List Char → Option (List Json × List Char)
  | 0, _ => none
  | fuel + 1, cs =>
    match parseValue fuel cs with
    | some (v, rest) =>
      match skipWs rest with
      | ',' :: rest2 =>
        match parseElems fuel rest2 with
        | some (vs, rest3) => some (v :: vs, rest3)
        | none => none
      | ']' :: rest2 => some ([v], rest2)
      | _ => none
    | none => none

def parseFields : Nat → List Char → Option (List (String × Json) × List Char)
  | 0, _ => none
  | fuel + 1, cs =>
    match skipWs cs with
    | '"' :: rest =>
      match parseStrBody fuel rest [] with
      | some (k, rest2) =>
        match skipWs rest2 with
        | ':' :: rest3 =>
          match parseValue fuel rest3 with
          | some (v, rest4) =>
            match skipWs rest4 with
            | ',' :: rest5 =>
              match parseFields fuel rest5 with
              | some (fs, rest6) => some ((k, v) :: fs, rest6)
              | none => none
            | '\x7d' :: rest5 => some ([(k, v)], rest5)
            | _ => none
          | none => none
        | _ => none
      | none => none
    | _ => none

end

/-- `JSON.parse` on the integer fragment of JSON; `none` models a thrown
`SyntaxError`. -/
def jsonParse (s : String) : Option Json :=
  match parseValue (s.length + 1) s.data with
  | some (v, rest) => if skipWs rest = [] then some v else none
  | none => none

/-- Property access `j.k` on a parsed value (fields the program writes are
unique, so first-match lookup agrees with the host's last-wins semantics). -/
def lookupField : List (String × Json) → String → Option Json
  | [], _ => none
  | f :: fs, k => if f.1 = k then some f.2 else lookupField fs k

def objField (j : Json) (k : String) : Option Json :=
  match j with
  | Json.obj fs => lookupField fs k
  | _ => none

/-- JS truthiness of a parsed JSON value. -/
def jsTruthy : Json → Bool
  | Json.null => false
  | Json.bool b => b
  | Json.num n => n != 0
  | Json.str s => s != ""
  | Json.arr _ => true
  | Json.obj _ => true

/-! `encodeURIComponent` / `decodeURIComponent` and `btoa` / `atob`,
the host functions behind `compress` / `decompress` in StorageHandler.jsx.
JS strings are modelled as sequences of Unicode scalar values (the program
never builds lone surrogates). -/
/-- UTF-8 bytes of one scalar value. -/
def utf8Bytes (c : Char) : List Nat :=
  let n := c.toNat
  if n < 128 then [n]
  else if n < 2048 then [192 + n / 64, 128 + n % 64]
  else if n < 65536 then [224 + n / 4096, 128 + n / 64 % 64, 128 + n % 64]
  else [240 + n / 262144, 128 + n / 4096 % 64, 128 + n / 64 % 64, 128 + n % 64]

/-- Characters `encodeURIComponent` leaves unescaped. -/
def isUriUnreserved (c : Char) : Bool :=
  c.isAlpha || c.isDigit || c = '-' || c = '_' || c = '.' || c = '!' ||
    c = '~' || c = '*' || c = '\'' || c = '(' || c = ')'

def percentEncodeByte (b : Nat) : List Char :=
  ['%', hexUpper (b / 16), hexUpper (b % 16)]

def encodeUriChar (c : Char) : List Char :=
  if isUriUnreserved c then [c] else ((utf8Bytes c).map percentEncodeByte).flatten

def encodeURIComponent (s : String) : String :=
  ⟨(s.data.map encodeUriChar).flatten⟩

/-- Read one `%XY` escape from the front of a character list. -/
def readPct : List Char → Option (Nat × List Char)
  | '%' :: h1 :: h2 :: rest =>
    match hexVal h1, hexVal h2 with
    | some a, some b => some (a * 16 + b, rest)
    | _, _ => none
  | _ => none

/-- A UTF-8 continuation byte. -/
def contByte (b : Nat) : Bool := 128 ≤ b && b < 192

/-- Decode the UTF-8 sequence led by the byte `b` (taken from one `%XX`
escape); the continuation bytes are further `%XX` escapes at the front of
`rest1`.  Returns the decoded character and the remaining input. -/
def decodePctChar (b : Nat) (rest1 : List Char) : Option (Char × List Char) :=
  if b < 128 then some (Char.ofNat b, rest1)
  else if b < 194 then none
  else if b < 224 then
    match readPct rest1 with
    | some (b2, rest2) =>
      if contByte b2 then
        match mkChar ((b - 192) * 64 + (b2 - 128)) with
        | some ch => some (ch, rest2)
        | none => none
      else none
    | none => none
  else if b < 240 then
    match readPct rest1 with
    | some (b2, rest2) =>
      match readPct rest2 with
      | some (b3, rest3) =>
        if contByte b2 && contByte b3 then
          if 2048 ≤ (b - 224) * 4096 + (b2 - 128) * 64 + (b3 - 128) then
            match mkChar ((b - 224) * 4096 + (b2 - 128) * 64 + (b3 - 128)) with
            | some ch => some (ch, rest3)
            | none => none
          else none
        else none
      | none => none
    | none => none
  else if b < 245 then
    match readPct rest1 with
    | some (b2, rest2) =>
      match readPct rest2 with
      | some (b3, rest3) =>
        match readPct rest3 with
        | some (b4, rest4) =>
          if contByte b2 && contByte b3 && contByte b4 then
            if 65536 ≤ (b - 240) * 262144 + (b2 - 128) * 4096 + (b3 - 128) * 64 + (b4 - 128) then
              match mkChar ((b - 240) * 262144 + (b2 - 128) * 4096 + (b3 - 128) * 64 + (b4 - 128)) with
              | some ch => some (ch, rest4)
              | none => none
            else none
          else none
        | none => none
      | none => none
    | none => none
  else none

/-- `decodeURIComponent` worker: decode `%XX` escapes, reassembling UTF-8
sequences; `none` models a thrown `URIError`.  Structural recursion on a
fuel bound (any fuel above the input length computes the same value). -/
def decodeUriAux : Nat → List Char → Option (List Char)
  | 0, _ => none
  | _ + 1, [] => some []
  | fuel + 1, c :: rest =>
    if c = '%' then
      match readPct (c :: rest) with
      | some (b, rest1) =>
        match decodePctChar b rest1 with
        | some (ch, rest2) => (decodeUriAux fuel rest2).map (fun l => ch :: l)
        | none => none
      | none => none
    else (decodeUriAux fuel rest).map (fun l => c :: l)

def decodeURIChars (cs : List Char) : Option (List Char) :=
  decodeUriAux (cs.length + 1) cs

def decodeURIComponentStr (s : String) : Option String :=
  match decodeURIChars s.data with
  | some cs => some ⟨cs⟩
  | none => none

/-- Base64 alphabet character of a 6-bit value. -/
def b64Char (n : Nat) : Char :=
  if n < 26 then Char.ofNat (65 + n)
  else if n < 52 then Char.ofNat (97 + (n - 26))
  else if n < 62 then Char.ofNat (48 + (n - 52))
  else if n = 62 then '+'
  else '/'

def b64Val (c : Char) : Option Nat :=
  if 'A' ≤ c ∧ c ≤ 'Z' then some (c.toNat - 65)
  else if 'a' ≤ c ∧ c ≤ 'z' then some (c.toNat - 71)
  else if '0' ≤ c ∧ c ≤ '9' then some (c.toNat + 4)
  else if c = '+' then some 62
  else if c = '/' then some 63
  else none

def btoaChunks : List Nat → List Char
  | [] => []
  | [b1] => [b64Char (b1 / 4), b64Char (b1 % 4 * 16), '=', '=']
  | [b1, b2] => [b64Char (b1 / 4), b64Char (b1 % 4 * 16 + b2 / 16), b64Char (b2 % 16 * 4), '=']
  | b1 :: b2 :: b3 :: rest =>
    b64Char (b1 / 4) :: b64Char (b1 % 4 * 16 + b2 / 16) ::
      b64Char (b2 % 16 * 4 + b3 / 64) :: b64Char (b3 % 64) :: btoaChunks rest

/-- `btoa`: `none` models `InvalidCharacterError` on a code point above 255. -/
def btoa (s : String) : Option String :=
  if s.data.all (fun c => c.toNat < 256) then some ⟨btoaChunks (s.data.map Char.toNat)⟩
  else none

/-- Forgiving-base64 decode, processing four characters at a time with the
padding forms recognised only at the end (whitespace, which the program
never stores, is not handled). -/
def atobChunks : List Char → Option (List Nat)
  | [] => some []
  | c1 :: c2 :: c3 :: c4 :: rest =>
    if c3 = '=' ∧ c4 = '=' ∧ rest = [] then
      match b64Val c1, b64Val c2 with
      | some v1, some v2 => some [v1 * 4 + v2 / 16]
      | _, _ => none
    else if c4 = '=' ∧ rest = [] then
      match b64Val c1, b64Val c2, b64Val c3 with
      | some v1, some v2, some v3 => some [v1 * 4 + v2 / 16, v2 % 16 * 16 + v3 / 4]
      | _, _, _ => none
    else
      match b64Val c1, b64Val c2, b64Val c3, b64Val c4, atobChunks rest with
      | some v1, some v2, some v3, some v4, some bs =>
        some ((v1 * 4 + v2 / 16) :: (v2 % 16 * 16 + v3 / 4) :: (v3 % 4 * 64 + v4) :: bs)
      | _, _, _, _, _ => none
  | [c1, c2] =>
    match b64Val c1, b64Val c2 with
    | some v1, some v2 => some [v1 * 4 + v2 / 16]
    | _, _ => none
  | [c1, c2, c3] =>
    match b64Val c1, b64Val c2, b64Val c3 with
    | some v1, some v2, some v3 => some [v1 * 4 + v2 / 16, v2 % 16 * 16 + v3 / 4]
    | _, _, _ => none
  | [_] => none

/-- `atob`: `none` models `InvalidCharacterError`. -/
def atob (s : String) : Option String :=
  match atobChunks s.data with
  | some bs => some ⟨bs.map Char.ofNat⟩
  | none => none

/-- `compress` (StorageHandler.jsx 4-10): `btoa(encodeURIComponent(data))`,
falling back to the input if the host throws. -/
def compress (s : String) : String :=
  match btoa (encodeURIComponent s) with
  | some t => t
  | none => s

/-- `decompress` (StorageHandler.jsx 12-18):
`decodeURIComponent(atob(data))`, falling back to the input if either call
throws. -/
def decompress (s : String) : String :=
  match atob s with
  | some bytes =>
    match decodeURIComponentStr bytes with
    | some r => r
    | none => s
  | none => s

/-- The read-path heuristic `serializedValue.match(/^[A-Za-z0-9+\/=]+$/)`
(StorageHandler.jsx 196). -/
def isB64String (s : String) : Bool :=
  !s.data.isEmpty && s.data.all (fun c => c.isAlpha || c.isDigit || c = '+' || c = '/' || c = '=')

/-! StorageHandler.jsx: `safeSetItem` / `safeGetItem`, LRU metadata and
eviction, `clearAllCache`.  Both web storages are modelled as available and
(here) quota-free: claim C8 conditions on the write having returned true,
and the quota path of `safeSetItem` is the subject of C1's page-level model.
The metadata write performed by `safeGetItem` on a hit only touches
`__meta_` keys and is omitted from the read model, which returns values. -/
/-- The serialized metadata `JSON.stringify({lastAccessed: now})`. -/
def metaValue (now : Int) : String :=
  lbrace ++ "\"lastAccessed\":" ++ intToString now ++ rbrace

/-- `updateMetadata` (StorageHandler.jsx 90-100). -/
def updateMetadata (st : Store) (k : String) (now : Int) : Store :=
  setItem st ("__meta_" ++ k) (metaValue now)

/-- The text stored for a value by `safeSetItem` with compression on:
serialize, and compress when longer than 10240 characters. -/
def storedText (v : Json) : String :=
  if 10240 < (jsonStringify v).length then compress (jsonStringify v) else jsonStringify v

/-- `safeSetItem` (StorageHandler.jsx 103-173) in the quota-free model:
reject an empty key, serialize, compress large payloads, store, update
metadata. -/
def safeSetItem (st : Store) (k : String) (v : Json) (now : Int)
    (useCompression : Bool) : Bool × Store :=
  if k = "" then (false, st)
  else
    (true, updateMetadata
      (setItem st k
        (if useCompression && decide (10240 < (jsonStringify v).length)
         then compress (jsonStringify v) else jsonStringify v))
      k now)

/-- The text handed to `JSON.parse` by `safeGetItem`
(StorageHandler.jsx 176-212): the stored string, decompressed when it
matches the base64 heuristic `/^[A-Za-z0-9+\/=]+$/`. -/
def safeGetItemText (st : Store) (k : String) : Option String :=
  if k = "" then none
  else
    match getItem st k with
    | none => none
    | some sv =>
      if sv = "" then none
      else some (if isB64String sv then decompress sv else sv)

/-- `safeGetItem`: parse the (possibly decompressed) stored text; a parse
failure is caught and returned as `null` (`none`). -/
def safeGetItem (st : Store) (k : String) : Option Json :=
  (safeGetItemText st k).bind jsonParse

/-- `safeRemoveItem` (StorageHandler.jsx 215-229). -/
def safeRemoveItem (st : Store) (k : String) : Store :=
  if k = "" then st else removeItem (removeItem st k) ("__meta_" ++ k)

/-- `String.prototype.includes`. -/
def listStartsWith : List Char → List Char → Bool
  | _, [] => true
  | [], _ :: _ => false
  | c :: cs, d :: ds => c = d && listStartsWith cs ds

def listContainsSub : List Char → List Char → Bool
  | [], ds => ds.isEmpty
  | c :: cs, ds => listStartsWith (c :: cs) ds || listContainsSub cs ds

def jsIncludes (hay sub : String) : Bool := listContainsSub hay.data sub.data

/-- The protected-key test of the eviction loop (StorageHandler.jsx 76). -/
def isProtectedKey (k : String) : Bool :=
  jsIncludes k "user_settings" || jsIncludes k "auth_token"

/-- The `lastAccessed` recorded for `k`, when its `__meta_` entry parses to
an object with a truthy numeric `lastAccessed` field (`meta.lastAccessed ||
Date.now()` treats 0, a parse failure and a missing field alike). -/
def metaLastAccessed (st : Store) (k : String) : Option Int :=
  match getItem st ("__meta_" ++ k) with
  | none => none
  | some mv =>
    match jsonParse mv with
    | some (Json.obj fs) =>
      match lookupField fs "lastAccessed" with
      | some (Json.num t) => if t = 0 then none else some t
      | _ => none
    | _ => none

/-- One element of `items` in `clearLRUItems` (StorageHandler.jsx 45-67). -/
structure LRUItem where
  key : String
  lastAccessed : Int
  size : Nat
deriving DecidableEq

/-- The `items` collection of `clearLRUItems`: every non-`__meta_` key with
its recorded (or defaulted-to-now) access time and its accounted size. -/
def collectItems (now : Int) (st : Store) : List LRUItem :=
  st.filterMap (fun e =>
    if e.1.startsWith "__meta_" then none
    else some ⟨e.1, (metaLastAccessed st e.1).getD now, e.2.length + e.1.length⟩)

def lruLe (a b : LRUItem) : Prop := a.lastAccessed ≤ b.lastAccessed

instance : DecidableRel lruLe := fun a b =>
  inferInstanceAs (Decidable (a.lastAccessed ≤ b.lastAccessed))

instance : IsTotal LRUItem lruLe := ⟨fun a b => Int.le_total _ _⟩

instance : IsTrans LRUItem lruLe := ⟨fun _ _ _ => Int.le_trans⟩

/-- The sorted (ascending by `lastAccessed`) item list of `clearLRUItems`. -/
def sortedLRU (now : Int) (st : Store) : List LRUItem :=
  List.insertionSort lruLe (collectItems now st)

/-- The eviction loop of `clearLRUItems`: walk the sorted items, skip
protected keys, remove each item with its `__meta_` sibling, and stop once
the freed bytes reach `need`. -/
def lruLoop (need : Nat) : List LRUItem → Nat → Store → Nat × Store
  | [], freed, s => (freed, s)
  | i :: rest, freed, s =>
    if isProtectedKey i.key then lruLoop need rest freed s
    else
      let s1 := removeItem (removeItem s i.key) ("__meta_" ++ i.key)
      if need ≤ freed + i.size then (freed + i.size, s1)
      else lruLoop need rest (freed + i.size) s1

/-- `clearLRUItems` (StorageHandler.jsx 45-87): returns the freed byte count
and the thinned store. -/
def clearLRUItems (need : Nat) (now : Int) (st : Store) : Nat × Store :=
  lruLoop need (sortedLRU now st) 0 st

/-- The default `bytesNeeded` of `clearLRUItems`. -/
def lruDefaultNeed : Nat := 200 * 1024

/-- The prefix of (non-protected) items the eviction loop removes. -/
def lruTaken (need : Nat) : List LRUItem → List LRUItem
  | [] => []
  | i :: rest =>
    if isProtectedKey i.key then lruTaken need rest
    else i :: (if need ≤ i.size then [] else lruTaken (need - i.size) rest)

/-- Remove a run of LRU items, each together with its `__meta_` sibling. -/
def removeLRUItems (st : Store) (l : List LRUItem) : Store :=
  l.foldl (fun s i => removeItem (removeItem s i.key) ("__meta_" ++ i.key)) st

/-- `clearAllCache` (StorageHandler.jsx 232-253): clear both storages; with
`preserveUserData` first read `user_settings` / `auth_token` and re-store
the ones that read back truthy.  Returns (result, localStorage,
sessionStorage). -/
def clearAllCache (preserveUserData : Bool) (now : Int) (lcl ssn : Store) :
    Bool × Store × Store :=
  if preserveUserData then
    let userSettings := safeGetItem lcl "user_settings"
    let authToken := safeGetItem lcl "auth_token"
    let l1 : Store :=
      match userSettings with
      | some j => if jsTruthy j then (safeSetItem [] "user_settings" j now true).2 else []
      | none => []
    let l2 : Store :=
      match authToken with
      | some j => if jsTruthy j then (safeSetItem l1 "auth_token" j now true).2 else l1
      | none => l1
    (true, l2, [])
  else (true, [], [])

/-- Conclusion of (amended) claim C8: the write succeeds, the read hands
`JSON.parse` exactly the original serialization, and the value read back is
`JSON.parse` of that serialization. -/
def RoundTripSpec (st : Store) (k : String) (v : Json) (now : Int) : Prop :=
  (safeSetItem st k v now true).1 = true ∧
  safeGetItemText (safeSetItem st k v now true).2 k = some (jsonStringify v) ∧
  safeGetItem (safeSetItem st k v now true).2 k = jsonParse (jsonStringify v)

/-! Page components: cache-gated fetches (Movie.jsx `fetchMovies` /
`searchMovies`, TvShows.jsx `fetchTvShows` / `fetchAllTvShows`), the
ListItem image pipeline, scroll-position memory and pagination handlers.
A network interaction is modelled by its parsed response: `none` is a
failed `fetch` or a non-ok status, `some j` a JSON body `j`. -/
/-- The freshness gate shared by the result caches: both entries present
and non-empty, and `now - parseInt(ts) < expiry` (an unparseable timestamp
compares as `NaN`, so the gate fails). -/
def cacheFresh (st : Store) (dataKey tsKey : String) (now expiry : Int) : Bool :=
  match getItem st dataKey, getItem st tsKey with
  | some d, some ts =>
    d ≠ "" && ts ≠ "" &&
      (match jsParseInt ts with
       | some t => decide (now - t < expiry)
       | none => false)
  | _, _ => false

/-- What one run of a fetch function did: whether the cache served the
request, whether the network was called, the rendered list state, the
storage writes issued (through `storageManager.safeSet`), the poster URLs
preloaded, and a clamped page correction. -/
structure FetchEffects where
  usedCache : Bool
  fetched : Bool
  rendered : Option Json
  errorSet : Bool
  writes : List (String × String)
  preloads : List String
  pageReset : Option Int

def BASE_IMG_URL : String := "https://image.tmdb.org/t/p/w500"

/-- `response.results` poster preloading: every result whose `poster_path`
is a (truthy) string gets an `Image` with `BASE_IMG_URL + poster_path`. -/
def preloadList (xs : List Json) : List String :=
  xs.filterMap (fun m =>
    match objField m "poster_path" with
    | some (Json.str p) => if p ≠ "" then some (BASE_IMG_URL ++ p) else none
    | _ => none)

/-- `reportedPages = response.total_pages || 1` (a non-numeric field is not
produced by the API and is modelled as the fallback). -/
def reportedTotalPages (resp : Json) : Int :=
  match objField resp "total_pages" with
  | some (Json.num n) => if n = 0 then 1 else n
  | _ => 1

/-- The cached payload `{results, total_pages}` written by `fetchMovies`
(`JSON.stringify` omits an absent field). -/
def movieCachePayload (resp : Json) (xs : List Json) : Json :=
  Json.obj (("results", Json.arr xs) ::
    (match objField resp "total_pages" with
     | some tp => [("total_pages", tp)]
     | none => []))

/-- The network half of `fetchMovies` (the `fetch(...).then` chain,
Movie.jsx 172-229). -/
def fetchMoviesMiss (key : String) (now pageNum : Int) :
    Option Json → FetchEffects
  | none =>
    { usedCache := false, fetched := true, rendered := some (Json.arr []),
      errorSet := true, writes := [], preloads := [], pageReset := none }
  | some resp =>
    if jsTruthy resp then
      match objField resp "results" with
      | some (Json.arr xs) =>
        if xs.isEmpty then
          { usedCache := false, fetched := true, rendered := some (Json.arr []),
            errorSet := true, writes := [], preloads := [], pageReset := none }
        else
          { usedCache := false, fetched := true, rendered := some (Json.arr xs),
            errorSet := false,
            writes := [(key, jsonStringify (movieCachePayload resp xs)),
                       (key ++ "_timestamp", intToString now)],
            preloads := preloadList xs,
            pageReset := if min (reportedTotalPages resp) 500 < pageNum
              then some (min (reportedTotalPages resp) 500) else none }
      | _ =>
        { usedCache := false, fetched := true, rendered := some (Json.arr []),
          errorSet := true, writes := [], preloads := [], pageReset := none }
    else
      { usedCache := false, fetched := true, rendered := some (Json.arr []),
        errorSet := true, writes := [], preloads := [], pageReset := none }

/-- `fetchMovies` (Movie.jsx 142-230), from the cache check to the state
updates of one completed run. -/
def fetchMoviesStep (st : Store) (now : Int) (pageNum : Int) (api : Option Json) :
    FetchEffects :=
  let key := "cachedMovies_" ++ intToString (min pageNum 500)
  if cacheFresh st key (key ++ "_timestamp") now (30 * 60 * 1000) then
    match jsonParse ((getItem st key).getD "") with
    | some parsed =>
      { usedCache := true, fetched := false, rendered := objField parsed "results",
        errorSet := false, writes := [], preloads := [], pageReset := none }
    | none => fetchMoviesMiss key now pageNum api
  else fetchMoviesMiss key now pageNum api

/-- `reportedPages` of `fetchTvShows` (TvShows.jsx 133-138):
`total_pages`, else `ceil(total_results / 20)`, else 1. -/
def tvReportedPages (resp : Json) : Int :=
  match objField resp "total_pages" with
  | some (Json.num n) => if n = 0 then tvReportedFromResults resp else n
  | _ => tvReportedFromResults resp
where
  tvReportedFromResults (resp : Json) : Int :=
    match objField resp "total_results" with
    | some (Json.num m) => if m = 0 then 1 else (m + 19) / 20
    | _ => 1

/-- The cached payload `{page, results, totalPages}` written by `fetchTvShows`. -/
def tvCachePayload (validated : Int) (xs : List Json) (actual : Int) : Json :=
  Json.obj [("page", Json.num validated), ("results", Json.arr xs),
    ("totalPages", Json.num actual)]

/-- The `if (0 < reported) min reported 500 else 1` clamp of `fetchTvShows`. -/
def tvActualPages (resp : Json) : Int :=
  if 0 < tvReportedPages resp then min (tvReportedPages resp) 500 else 1

/-- The network half of `fetchTvShows` (TvShows.jsx 113-175). -/
def fetchTvShowsMiss (now pageNum : Int) : Option Json → FetchEffects
  | none =>
    { usedCache := false, fetched := true, rendered := some (Json.arr []),
      errorSet := true, writes := [], preloads := [], pageReset := none }
  | some resp =>
    if jsTruthy resp then
      match objField resp "results" with
      | some (Json.arr xs) =>
        if xs.isEmpty then
          { usedCache := false, fetched := true, rendered := some (Json.arr []),
            errorSet := true, writes := [], preloads := [], pageReset := none }
        else
          { usedCache := false, fetched := true, rendered := some (Json.arr xs),
            errorSet := false,
            writes := [("cachedTvShows",
                jsonStringify (tvCachePayload (min pageNum 500) xs (tvActualPages resp))),
              ("cachedTvShowsTimestamp", intToString now)],
            preloads := preloadList xs,
            pageReset := if tvActualPages resp < pageNum then some (tvActualPages resp)
              else none }
      | _ =>
        { usedCache := false, fetched := true, rendered := some (Json.arr []),
          errorSet := true, writes := [], preloads := [], pageReset := none }
    else
      { usedCache := false, fetched := true, rendered := some (Json.arr []),
        errorSet := true, writes := [], preloads := [], pageReset := none }

/-- `fetchTvShows` (TvShows.jsx 81-176).  The single cache entry
`cachedTvShows` (timestamp sibling `cachedTvShowsTimestamp`) is a hit only
when fresh, parseable and recorded for the requested page. -/
def fetchTvShowsStep (st : Store) (now : Int) (pageNum : Int) (api : Option Json) :
    FetchEffects :=
  if cacheFresh st "cachedTvShows" "cachedTvShowsTimestamp" now (30 * 60 * 1000) then
    match jsonParse ((getItem st "cachedTvShows").getD "") with
    | some parsed =>
      match objField parsed "page" with
      | some (Json.num p) =>
        if p = min pageNum 500 then
          { usedCache := true, fetched := false, rendered := objField parsed "results",
            errorSet := false, writes := [], preloads := [], pageReset := none }
        else fetchTvShowsMiss now pageNum api
      | _ => fetchTvShowsMiss now pageNum api
    | none => fetchTvShowsMiss now pageNum api
  else fetchTvShowsMiss now pageNum api

/-- The key of the Movie search cache (Movie.jsx 243). -/
def searchMoviesKey (query : String) (pageNum : Int) : String :=
  "searchCache_movie_" ++ query.toLower ++ "_" ++ intToString pageNum

/-- The cache-write pair issued by `searchMovies` on a successful search
response (Movie.jsx 298-299). -/
def searchMoviesWrites (query : String) (pageNum : Int) (now : Int) (data : Json) :
    List (String × String) :=
  [(searchMoviesKey query pageNum, jsonStringify data),
   (searchMoviesKey query pageNum ++ "_timestamp", intToString now)]

/-- The cache-read gate of `searchMovies` (Movie.jsx 243-273), 30 minutes. -/
def searchMoviesCacheHit (st : Store) (now : Int) (query : String) (pageNum : Int) : Bool :=
  cacheFresh st (searchMoviesKey query pageNum)
    (searchMoviesKey query pageNum ++ "_timestamp") now (30 * 60 * 1000) &&
  (jsonParse ((getItem st (searchMoviesKey query pageNum)).getD "")).isSome

/-- The key of the aggregated TV-show search cache (TvShows.jsx 179). -/
def tvSearchKey (searchTerm : String) : String :=
  "searchCache_tvShow_" ++ searchTerm.toLower

/-- The cache-read gate of `fetchAllTvShows` (TvShows.jsx 178-195): entries
present, search term truthy, fresh within 60 minutes, parseable. -/
def tvSearchCacheHit (st : Store) (now : Int) (searchTerm : String) : Bool :=
  (match getItem st (tvSearchKey searchTerm),
         getItem st (tvSearchKey searchTerm ++ "_timestamp") with
   | some d, some ts =>
     d ≠ "" && ts ≠ "" && searchTerm ≠ "" &&
       (match jsParseInt ts with
        | some t => decide (now - t < 60 * 60 * 1000)
        | none => false) &&
       (jsonParse d).isSome
   | _, _ => false)

/-- The cache-write pair issued at the end of `fetchAllTvShows`
(TvShows.jsx 242-245), only for a truthy search term. -/
def tvSearchWrites (searchTerm : String) (now : Int) (allResults : Json) :
    List (String × String) :=
  if searchTerm ≠ "" then
    [(tvSearchKey searchTerm, jsonStringify allResults),
     (tvSearchKey searchTerm ++ "_timestamp", intToString now)]
  else []

/-! ListItem.jsx: the poster-image pipeline. -/
/-- `now - ts` when the cached timestamp is a number; `none` is a `NaN`
comparison, which fails the gate. -/
def jsNumSub (a : Int) (j : Json) : Option Int :=
  match j with
  | Json.num t => some (a - t)
  | _ => none

/-- The persistent-cache gate of the ListItem image effect
(ListItem.jsx 119-143): both `safeGetItem` reads truthy and the cached
timestamp younger than 7 days. -/
def listItemCacheFresh (st : Store) (now : Int) (pid : Int) : Bool :=
  match safeGetItem st ("image_" ++ intToString pid),
        safeGetItem st ("image_" ++ intToString pid ++ "_timestamp") with
  | some img, some ts =>
    jsTruthy img && jsTruthy ts &&
      (match jsNumSub now ts with
       | some d => decide (d < 7 * 24 * 60 * 60 * 1000)
       | none => false)
  | _, _ => false

/-- Final state of one ListItem image load: the displayed source, the
`safeSetItem` writes issued, and the keys removed as expired. -/
structure ListItemLoad where
  imgSrc : Option Json
  writes : List (String × Json)
  removedKeys : List String

/-- The in-memory image cache lookup. -/
def memLookup : List (String × String) → String → Option String
  | [], _ => none
  | e :: m, k => if e.1 = k then some e.2 else memLookup m k

/-- The ListItem image-loading effect (ListItem.jsx 101-198): memory cache,
then persistent cache (removing an expired entry), then thumbnail plus
network fetch; a blob over 300KB is displayed from the network but never
written to the persistent cache. -/
def listItemImageLoad (mem : List (String × String)) (st : Store) (now : Int)
    (pid : Int) (posterPath : String) (fetchOk : Bool) (blobSize : Nat)
    (base64data : String) (thumbLoaded : Bool) : ListItemLoad :=
  let memKey := intToString pid ++ "_" ++ posterPath
  let ik := "image_" ++ intToString pid
  let tk := ik ++ "_timestamp"
  match memLookup mem memKey with
  | some cached => { imgSrc := some (Json.str cached), writes := [], removedKeys := [] }
  | none =>
    if listItemCacheFresh st now pid then
      { imgSrc := safeGetItem st ik, writes := [], removedKeys := [] }
    else
      let bothPresent :=
        match safeGetItem st ik, safeGetItem st tk with
        | some a, some b => jsTruthy a && jsTruthy b
        | _, _ => false
      let removed := if bothPresent then [ik, tk] else []
      let thumbnailUrl := "https://image.tmdb.org/t/p/w92" ++ posterPath
      if fetchOk then
        if 300 * 1024 < blobSize then
          { imgSrc := if thumbLoaded then some (Json.str thumbnailUrl) else none,
            writes := [], removedKeys := removed }
        else
          { imgSrc := some (Json.str base64data),
            writes := [(ik, Json.str base64data), (tk, Json.num now)],
            removedKeys := removed }
      else
        { imgSrc := if thumbLoaded then some (Json.str thumbnailUrl) else none,
          writes := [], removedKeys := removed }

/-! Movie.jsx: scroll-position memory and page-change handling. -/
abbrev PosMap := List (String × Int)

def posGet : PosMap → String → Option Int
  | [], _ => none
  | e :: m, k => if e.1 = k then some e.2 else posGet m k

def posSet : PosMap → String → Int → PosMap
  | [], k, y => [(k, y)]
  | e :: m, k, y => if e.1 = k then (k, y) :: m else e :: posSet m k y

/-- The scroll-memory key `${searchTerm || 'browse'}_${page}`. -/
def pageKeyOf (searchTerm : String) (page : Int) : String :=
  (if searchTerm = "" then "browse" else searchTerm) ++ "_" ++ intToString page

/-- `scrollPositionMemory.savePosition` (Movie.jsx 77-79). -/
def savePosition (pos : PosMap) (searchTerm : String) (page : Int) (scrollY : Int) : PosMap :=
  posSet pos (pageKeyOf searchTerm page) scrollY

/-- `scrollPositionMemory.getPosition`: `positions[key] || 0`. -/
def getPosition (pos : PosMap) (k : String) : Int :=
  (posGet pos k).getD 0

/-- `scrollPositionMemory.hasPosition`. -/
def hasPosition (pos : PosMap) (k : String) : Bool :=
  (posGet pos k).isSome

/-- `handlePageChange` of Movie.jsx (375-391): new page state, scroll
memory, and the `isScrollRestored` flag. -/
def movieHandlePageChange (newPage page totalPages : Int) (searchTerm : String)
    (scrollY : Int) (pos : PosMap) (isScrollRestored : Bool) :
    Int × PosMap × Bool :=
  if 1 ≤ newPage then
    if totalPages < newPage then (totalPages, pos, isScrollRestored)
    else (newPage, savePosition pos searchTerm page scrollY, false)
  else (1, pos, isScrollRestored)

/-- The scroll-restore effect (Movie.jsx 394-413): the window is scrolled
(to the remembered offset, or 0) only when a load just finished and the
restore flag was reset. -/
def scrollRestoreTarget (isLoading isScrollRestored : Bool) (searchTerm : String)
    (page : Int) (pos : PosMap) : Option Int :=
  if !isLoading && !isScrollRestored then
    some (if hasPosition pos (pageKeyOf searchTerm page)
          then getPosition pos (pageKeyOf searchTerm page) else 0)
  else none

/-! Pagination.jsx: `goToPage`, `handlePrevPage`, `handleNextPage`
(15-52).  The `Option` result is the value passed to `onPageChange`
(`none`: not called). -/
def goToPage (totalPages : Int) (isAnimating : Bool) (n : Int) : Option Int :=
  if isAnimating then none
  else if 1 ≤ n ∧ n ≤ totalPages then some n
  else if totalPages < n then some totalPages
  else none

def handlePrevPage (page : Int) (isAnimating : Bool) : Option Int :=
  if 1 < page ∧ !isAnimating then some (page - 1) else none

def handleNextPage (page totalPages : Int) (isAnimating : Bool) : Option Int :=
  if page < totalPages ∧ !isAnimating then some (page + 1) else none

/-- The page-state clamp performed by `handlePageChange` in the page
components (TvShows.jsx 289-300, and the same branch structure in
Movie.jsx). -/
def pageClamp (newPage totalPages : Int) : Int :=
  if 1 ≤ newPage then
    if totalPages < newPage then totalPages else newPage
  else 1

/-- Conclusion of claim C10 over the Pagination/page-component models. -/
def PaginationRangeSpec (page totalPages : Int) (anim : Bool) : Prop :=
  (∀ n v, goToPage totalPages anim n = some v → 1 ≤ v ∧ v ≤ totalPages) ∧
  (∀ n, 1 ≤ n → n ≤ totalPages → anim = false → goToPage totalPages anim n = some n) ∧
  (∀ n, totalPages < n → anim = false → goToPage totalPages anim n = some totalPages) ∧
  (∀ n, n < 1 → goToPage totalPages anim n = none) ∧
  (∀ v, handlePrevPage page anim = some v → 1 < page ∧ v = page - 1) ∧
  (∀ v, handleNextPage page totalPages anim = some v → page < totalPages ∧ v = page + 1) ∧
  (∀ n, 1 ≤ pageClamp n totalPages ∧ pageClamp n totalPages ≤ totalPages)

/-- Conclusion of (amended) claim C4. -/
def ScrollMemorySpec (newPage page totalPages : Int) (searchTerm : String)
    (scrollY : Int) (pos : PosMap) (flag : Bool) : Prop :=
  (1 ≤ newPage → newPage ≤ totalPages →
    movieHandlePageChange newPage page totalPages searchTerm scrollY pos flag =
      (newPage, savePosition pos searchTerm page scrollY, false)) ∧
  (totalPages < newPage → 1 ≤ newPage →
    movieHandlePageChange newPage page totalPages searchTerm scrollY pos flag =
      (totalPages, pos, flag)) ∧
  (newPage < 1 →
    movieHandlePageChange newPage page totalPages searchTerm scrollY pos flag =
      (1, pos, flag)) ∧
  (scrollRestoreTarget false false searchTerm page
      (savePosition pos searchTerm page scrollY) = some scrollY) ∧
  (hasPosition pos (pageKeyOf searchTerm page) = false →
    scrollRestoreTarget false false searchTerm page pos = some 0) ∧
  (scrollRestoreTarget true flag searchTerm page pos = none) ∧
  (scrollRestoreTarget false true searchTerm page pos = none)

/-- Conclusion of claim C3 over the ListItem image pipeline: with the
memory and persistent caches missing and the network fetch succeeding,
an over-300KB blob is displayed from the network (the w92 thumbnail URL)
and writes nothing, while a blob of at most 300KB is displayed as base64
data and persisted with its timestamp. -/
def ImageCacheGuardSpec (mem : List (String × String)) (st : Store) (now : Int)
    (pid : Int) (posterPath : String) (blobSize : Nat) (base64data : String) : Prop :=
  (300 * 1024 < blobSize →
    (listItemImageLoad mem st now pid posterPath true blobSize base64data true).writes = [] ∧
    (listItemImageLoad mem st now pid posterPath true blobSize base64data true).imgSrc =
      some (Json.str ("https://image.tmdb.org/t/p/w92" ++ posterPath))) ∧
  (blobSize ≤ 300 * 1024 →
    (listItemImageLoad mem st now pid posterPath true blobSize base64data true).writes =
      [("image_" ++ intToString pid, Json.str base64data),
       ("image_" ++ intToString pid ++ "_timestamp", Json.num now)] ∧
    (listItemImageLoad mem st now pid posterPath true blobSize base64data true).imgSrc =
      some (Json.str base64data))

def FreshnessSpec (st : Store) (now pageNum : Int) (api : Option Json)
    (query searchTerm : String) (pid : Int) : Prop :=
  ((fetchMoviesStep st now pageNum api).usedCache = true →
    ∃ ts t,
      getItem st ("cachedMovies_" ++ intToString (min pageNum 500) ++ "_timestamp") = some ts ∧
      jsParseInt ts = some t ∧ now - t < 30 * 60 * 1000) ∧
  ((fetchMoviesStep st now pageNum api).usedCache = false →
    (fetchMoviesStep st now pageNum api).fetched = true) ∧
  ((fetchTvShowsStep st now pageNum api).usedCache = true →
    ∃ ts t, getItem st "cachedTvShowsTimestamp" = some ts ∧
      jsParseInt ts = some t ∧ now - t < 30 * 60 * 1000) ∧
  ((fetchTvShowsStep st now pageNum api).usedCache = false →
    (fetchTvShowsStep st now pageNum api).fetched = true) ∧
  (searchMoviesCacheHit st now query pageNum = true →
    ∃ ts t, getItem st (searchMoviesKey query pageNum ++ "_timestamp") = some ts ∧
      jsParseInt ts = some t ∧ now - t < 30 * 60 * 1000) ∧
  (tvSearchCacheHit st now searchTerm = true →
    ∃ ts t, getItem st (tvSearchKey searchTerm ++ "_timestamp") = some ts ∧
      jsParseInt ts = some t ∧ now - t < 60 * 60 * 1000) ∧
  (listItemCacheFresh st now pid = true →
    ∃ ts d, safeGetItem st ("image_" ++ intToString pid ++ "_timestamp") = some ts ∧
      jsNumSub now ts = some d ∧ d < 7 * 24 * 60 * 60 * 1000)

/-- The response used to exercise the TV cache write concretely. -/
def c5Resp : Json :=
  Json.obj [("results", Json.arr [Json.num 7]), ("total_pages", Json.num 2)]

/-- The cache-write pairing discipline: each successful listing or search
write stores the payload under its key and the write time under a sibling
key, written together in one pair of `safeSet` calls.  The movie listing
and both search caches use `key ++ "_timestamp"`; the TV listing uses the
sibling `cachedTvShowsTimestamp`, which is not of that form. -/
def CacheWritePairSpec (key query searchTerm : String) (now pageNum : Int)
    (resp data allResults : Json) (xs : List Json) : Prop :=
  (fetchMoviesMiss key now pageNum (some resp)).writes.map Prod.fst =
    [key, key ++ "_timestamp"] ∧
  (searchMoviesWrites query pageNum now data).map Prod.fst =
    [searchMoviesKey query pageNum, searchMoviesKey query pageNum ++ "_timestamp"] ∧
  (tvSearchWrites searchTerm now allResults).map Prod.fst =
    [tvSearchKey searchTerm, tvSearchKey searchTerm ++ "_timestamp"] ∧
  (fetchTvShowsMiss now pageNum (some resp)).writes.map Prod.fst =
    ["cachedTvShows", "cachedTvShowsTimestamp"] ∧
  "cachedTvShowsTimestamp" ≠ "cachedTvShows" ++ "_timestamp"

/-- The movie listing cache key for a requested page. -/
def movieKey (pageNum : Int) : String :=
  "cachedMovies_" ++ intToString (min pageNum 500)

/-- The fetch control flow of the two listing pages.  A fresh parseable
movie entry short-circuits the network; the TV cache additionally has to
record the requested page, and otherwise the page refetches even though a
fresh entry exists.  A miss fetches; a successful non-empty response is
stored together with its timestamp, its posters are preloaded and its
results rendered. -/
def FetchFlowSpec (st : Store) (now pageNum : Int) (api : Option Json) : Prop :=
  (∀ parsed,
    cacheFresh st (movieKey pageNum) (movieKey pageNum ++ "_timestamp")
      now (30 * 60 * 1000) = true →
    jsonParse ((getItem st (movieKey pageNum)).getD "") = some parsed →
    fetchMoviesStep st now pageNum api =
      { usedCache := true, fetched := false, rendered := objField parsed "results",
        errorSet := false, writes := [], preloads := [], pageReset := none }) ∧
  (cacheFresh st (movieKey pageNum) (movieKey pageNum ++ "_timestamp")
      now (30 * 60 * 1000) = false →
    (fetchMoviesStep st now pageNum api).usedCache = false ∧
    (fetchMoviesStep st now pageNum api).fetched = true) ∧
  (∀ resp xs, api = some resp → jsTruthy resp = true →
    objField resp "results" = some (Json.arr xs) → xs.isEmpty = false →
    cacheFresh st (movieKey pageNum) (movieKey pageNum ++ "_timestamp")
      now (30 * 60 * 1000) = false →
    (fetchMoviesStep st now pageNum api).writes =
      [(movieKey pageNum, jsonStringify (movieCachePayload resp xs)),
       (movieKey pageNum ++ "_timestamp", intToString now)] ∧
    (fetchMoviesStep st now pageNum api).preloads = preloadList xs ∧
    (fetchMoviesStep st now pageNum api).rendered = some (Json.arr xs)) ∧
  (∀ parsed p,
    cacheFresh st "cachedTvShows" "cachedTvShowsTimestamp" now (30 * 60 * 1000) = true →
    jsonParse ((getItem st "cachedTvShows").getD "") = some parsed →
    objField parsed "page" = some (Json.num p) → p = min pageNum 500 →
    fetchTvShowsStep st now pageNum api =
      { usedCache := true, fetched := false, rendered := objField parsed "results",
        errorSet := false, writes := [], preloads := [], pageReset := none }) ∧
  (∀ parsed p,
    cacheFresh st "cachedTvShows" "cachedTvShowsTimestamp" now (30 * 60 * 1000) = true →
    jsonParse ((getItem st "cachedTvShows").getD "") = some parsed →
    objField parsed "page" = some (Json.num p) → p ≠ min pageNum 500 →
    (fetchTvShowsStep st now pageNum api).usedCache = false ∧
    (fetchTvShowsStep st now pageNum api).fetched = true) ∧
  (∀ resp xs, api = some resp → jsTruthy resp = true →
    objField resp "results" = some (Json.arr xs) → xs.isEmpty = false →
    cacheFresh st "cachedTvShows" "cachedTvShowsTimestamp" now (30 * 60 * 1000) = false →
    (fetchTvShowsStep st now pageNum api).writes =
      [("cachedTvShows",
        jsonStringify (tvCachePayload (min pageNum 500) xs (tvActualPages resp))),
       ("cachedTvShowsTimestamp", intToString now)] ∧
    (fetchTvShowsStep st now pageNum api).preloads = preloadList xs ∧
    (fetchTvShowsStep st now pageNum api).rendered = some (Json.arr xs))

/-- A fresh movie cache entry for page 1 at time 1000. -/
def c6MovieStore : Store :=
  [("cachedMovies_1", "\x7b\"results\":[4],\"total_pages\":3\x7d"),
   ("cachedMovies_1_timestamp", "1000")]

/-- The parse of the payload stored in `c6MovieStore`. -/
def c6Parsed : Json :=
  Json.obj [("results", Json.arr [Json.num 4]), ("total_pages", Json.num 3)]

/-- A fresh TV cache entry recorded for page 1 at time 1000. -/
def c6TvStore : Store :=
  [("cachedTvShows", "\x7b\"page\":1,\"results\":[4],\"totalPages\":3\x7d"),
   ("cachedTvShowsTimestamp", "1000")]

/-- Total accounted size of a run of LRU items. -/
def sumSizes (l : List LRUItem) : Nat := (l.map LRUItem.size).sum

/-- What `clearLRUItems` does: the collected items are sorted ascending by
recorded access time, the evicted items are an in-order selection of that
list, the freed byte count is their total size and the store loses exactly
them and their `__meta_` siblings, eviction stops as soon as the request is
met, only exhausts the unprotected items when the request cannot be met,
the default request is 200KB, and — when every recorded access time lies in
the past — an entry without valid metadata carries the maximal time `now`. -/
def ClearLRUSpec (need : Nat) (now : Int) (st : Store) : Prop :=
  (sortedLRU now st).Pairwise lruLe ∧
  List.Sublist (lruTaken need (sortedLRU now st)) (sortedLRU now st) ∧
  clearLRUItems need now st =
    (sumSizes (lruTaken need (sortedLRU now st)),
     removeLRUItems st (lruTaken need (sortedLRU now st))) ∧
  (∀ i ∈ lruTaken need (sortedLRU now st),
    getItem (clearLRUItems need now st).2 i.key = none ∧
    getItem (clearLRUItems need now st).2 ("__meta_" ++ i.key) = none) ∧
  (∀ k, (∀ i ∈ lruTaken need (sortedLRU now st), k ≠ i.key ∧ k ≠ "__meta_" ++ i.key) →
    getItem (clearLRUItems need now st).2 k = getItem st k) ∧
  sumSizes (lruTaken need (sortedLRU now st)).dropLast < need ∧
  (sumSizes (lruTaken need (sortedLRU now st)) < need →
    lruTaken need (sortedLRU now st) =
      (sortedLRU now st).filter (fun i => ! (isProtectedKey i.key))) ∧
  lruDefaultNeed = 200 * 1024 ∧
  ((∀ k t, metaLastAccessed st k = some t → t ≤ now) →
    ∀ i ∈ sortedLRU now st,
      i.lastAccessed ≤ now ∧
      (metaLastAccessed st i.key = none → i.lastAccessed = now))

/-- A store with one old cache entry, one newer one and a protected key. -/
def c7Store : Store :=
  [("cachedMovies_1", "aaaa"), ("__meta_cachedMovies_1", "\x7b\"lastAccessed\":3\x7d"),
   ("user_settings", "x"), ("searchCache_movie_q_1", "bb"),
   ("__meta_searchCache_movie_q_1", "\x7b\"lastAccessed\":4\x7d")]

/-- Protection under cache clearing: eviction never takes an item whose key
contains `user_settings` or `auth_token` and leaves such (non-`__meta_`)
keys' values untouched, while every unprotected non-`__meta_` key is
eligible; `clearAllCache` with `preserveUserData` re-stores `user_settings`
and `auth_token` only when the stored value reads back truthy, and loses
the stored entry when the read is falsy or fails. -/
def ClearProtectedSpec (need : Nat) (now : Int) (st lcl ssn : Store)
    (k v : String) : Prop :=
  (∀ i ∈ lruTaken need (sortedLRU now st), isProtectedKey i.key = false) ∧
  (∀ q, isProtectedKey q = true →
    listStartsWith q.data ("__meta_" : String).data = false →
    getItem (clearLRUItems need now st).2 q = getItem st q) ∧
  (∀ j, safeGetItem lcl "user_settings" = some j → jsTruthy j = true →
    getItem (clearAllCache true now lcl ssn).2.1 "user_settings" =
      some (storedText j)) ∧
  (∀ j, safeGetItem lcl "auth_token" = some j → jsTruthy j = true →
    getItem (clearAllCache true now lcl ssn).2.1 "auth_token" =
      some (storedText j)) ∧
  (∀ j, safeGetItem lcl "user_settings" = some j → jsTruthy j = false →
    getItem (clearAllCache true now lcl ssn).2.1 "user_settings" = none) ∧
  (safeGetItem lcl "user_settings" = none →
    getItem (clearAllCache true now lcl ssn).2.1 "user_settings" = none) ∧
  (clearAllCache true now lcl ssn).2.2 = [] ∧
  (isProtectedKey k = false → k.startsWith "__meta_" = false →
    getItem (clearLRUItems need now [(k, v)]).2 k = none)

theorem getItem_removeItem_self (st : Store) (k : String) :
    getItem (removeItem st k) k = none := by
  induction st with
  | nil => rfl
  | cons e st ih =>
    by_cases h : e.1 = k
    · simpa [removeItem, h] using ih
    · simpa [removeItem, getItem, h] using ih

theorem getItem_removeItem_ne (st : Store) (k k2 : String) (h : k2 ≠ k) :
    getItem (removeItem st k) k2 = getItem st k2 := by
  induction st with
  | nil => rfl
  | cons e st ih =>
    by_cases he : e.1 = k
    · simpa [removeItem, getItem, he, h, Ne.symm h] using ih
    · by_cases he2 : e.1 = k2
      · simp [removeItem, getItem, he, he2, h]
      · simpa [removeItem, getItem, he, he2, h] using ih

theorem getItem_removeItem_none (st : Store) (k k2 : String)
    (h : getItem st k2 = none) : getItem (removeItem st k) k2 = none := by
  by_cases hk : k2 = k
  · simpa [hk] using getItem_removeItem_self st k
  · rwa [getItem_removeItem_ne st k k2 hk]

theorem getItem_removeEntries_none (l : List CacheKeyEntry) :
    ∀ (st : Store) (k2 : String), getItem st k2 = none →
      getItem (removeEntries st l) k2 = none := by
  induction l with
  | nil => intro st k2 h; exact h
  | cons e l ih =>
    intro st k2 h
    exact ih _ _ (getItem_removeItem_none _ _ _ (getItem_removeItem_none _ _ _ h))

theorem getItem_removeEntries_mem (l : List CacheKeyEntry) (e : CacheKeyEntry) :
    ∀ st : Store, e ∈ l →
      getItem (removeEntries st l) e.key = none ∧
      getItem (removeEntries st l) e.timestampKey = none := by
  induction l with
  | nil => intro st he; cases he
  | cons a l ih =>
    intro st he
    rcases List.mem_cons.mp he with rfl | hmem
    · constructor
      · exact getItem_removeEntries_none l _ _
          (getItem_removeItem_none _ _ _ (getItem_removeItem_self _ _))
      · exact getItem_removeEntries_none l _ _ (getItem_removeItem_self _ _)
    · exact ih _ hmem

theorem getItem_removeEntries_not_mem (l : List CacheKeyEntry) :
    ∀ (st : Store) (k2 : String),
      (∀ e ∈ l, k2 ≠ e.key ∧ k2 ≠ e.timestampKey) →
      getItem (removeEntries st l) k2 = getItem st k2 := by
  induction l with
  | nil => intro st k2 _; rfl
  | cons a l ih =>
    intro st k2 h
    have ha := h a (List.mem_cons_self a l)
    have step : removeEntries st (a :: l) =
        removeEntries (removeItem (removeItem st a.key) a.timestampKey) l := rfl
    rw [step, ih _ _ (fun e he => h e (List.mem_cons_of_mem a he)),
      getItem_removeItem_ne _ _ _ ha.2, getItem_removeItem_ne _ _ _ ha.1]

/-- C1: when a cache write raises a quota-exceeded error
(`QuotaExceededError`, `NS_ERROR_DOM_QUOTA_REACHED`, code 22 or 1014),
`storageManager.safeSet` evicts the oldest `ceil(30%)` of the cache entries
(keys starting with `cached`/`searchCache_` that have a sibling `_timestamp`
key, sorted ascending by recorded timestamp) together with their timestamp
keys, then retries the write exactly once; if the retry also fails it
returns `false` without throwing. -/
theorem c1_safeSet_quota_eviction (cap : Nat) (err : JsError) (st : Store)
    (k v : String) (hfail : jsSetItem cap st k v = none)
    (hq : isQuotaErrorPage err = true) :
    SafeSetQuotaSpec cap err st k v := by
  have hlen : (List.insertionSort timeLe (collectCacheKeys st)).length =
      (collectCacheKeys st).length :=
    (List.perm_insertionSort timeLe (collectCacheKeys st)).length_eq
  have hclear : clearOldCache st =
      removeEntries st ((List.insertionSort timeLe (collectCacheKeys st)).take
        (ceil30 (collectCacheKeys st).length)) := by
    rw [clearOldCache, hlen]
  have htake : ceil30 (collectCacheKeys st).length ≤
      (List.insertionSort timeLe (collectCacheKeys st)).length := by
    rw [hlen]
    unfold ceil30
    omega
  refine ⟨?_, ?_, ?_, ?_, ?_, ?_, ?_⟩
  · intro st2 h2
    unfold safeSet
    rw [hfail]
    simp only [hq, if_true]
    rw [hclear] at h2 ⊢
    rw [h2]
  · intro h2
    unfold safeSet
    rw [hfail]
    simp only [hq, if_true]
    rw [hclear] at h2 ⊢
    rw [h2]
  · intro e he
    rw [hclear]
    exact getItem_removeEntries_mem _ _ _ he
  · intro k2 h2
    rw [hclear]
    exact getItem_removeEntries_not_mem _ _ _ h2
  · exact List.sorted_insertionSort timeLe (collectCacheKeys st)
  · exact List.perm_insertionSort timeLe (collectCacheKeys st)
  · rw [List.length_take]
    omega

theorem c1_witness :
    SafeSetQuotaSpec 6 ⟨"QuotaExceededError", 0⟩ c1Store "k" "vvvv" :=
  c1_safeSet_quota_eviction 6 ⟨"QuotaExceededError", 0⟩ c1Store "k" "vvvv"
    (by decide) (by decide)

theorem readPct_length {cs : List Char} {b : Nat} {rest : List Char}
    (h : readPct cs = some (b, rest)) : rest.length + 3 = cs.length := by
  unfold readPct at h
  split at h
  · split at h
    · simp only [Option.some.injEq, Prod.mk.injEq] at h
      simp [← h.2]
    · exact absurd h (by simp)
  · exact absurd h (by simp)

theorem charToNat_ofNat (n : Nat) (h : n.isValidChar) : (Char.ofNat n).toNat = n := by
  unfold Char.ofNat
  split
  · rfl
  · exact absurd h (by assumption)

theorem charToNat_lt (c : Char) : c.toNat < 1114112 := by
  have h := c.valid
  simp only [Char.toNat]
  rcases h with h | h
  · omega
  · omega

theorem hexVal_hexUpper : ∀ n < 16, hexVal (hexUpper n) = some n := by decide

theorem uriUnreserved_ne_pct (c : Char) (h : isUriUnreserved c = true) : c ≠ '%' := by
  intro hc
  rw [hc] at h
  exact absurd h (by decide)

theorem readPct_encode (b : Nat) (hb : b < 256) (t : List Char) :
    readPct ('%' :: hexUpper (b / 16) :: hexUpper (b % 16) :: t) = some (b, t) := by
  simp [readPct, hexVal_hexUpper (b / 16) (by omega), hexVal_hexUpper (b % 16) (by omega)]
  omega

theorem decodePctChar_length {b : Nat} {rest1 : List Char} {ch : Char} {rest2 : List Char}
    (h : decodePctChar b rest1 = some (ch, rest2)) : rest2.length ≤ rest1.length := by
  unfold decodePctChar at h
  split_ifs at h
  · simp only [Option.some.injEq, Prod.mk.injEq] at h
    rw [← h.2]
  all_goals first
  | (split at h
     · rename_i hr1
       have e1 := readPct_length hr1
       first
       | (split_ifs at h
          split at h
          · simp only [Option.some.injEq, Prod.mk.injEq] at h
            rw [← h.2]
            omega
          · exact absurd h (by simp))
       | (split at h
          · rename_i hr2
            have e2 := readPct_length hr2
            first
            | (split_ifs at h
               split at h
               · simp only [Option.some.injEq, Prod.mk.injEq] at h
                 rw [← h.2]
                 omega
               · exact absurd h (by simp))
            | (split at h
               · rename_i hr3
                 have e3 := readPct_length hr3
                 split_ifs at h
                 split at h
                 · simp only [Option.some.injEq, Prod.mk.injEq] at h
                   rw [← h.2]
                   omega
                 · exact absurd h (by simp)
               · exact absurd h (by simp))
          · exact absurd h (by simp))
     · exact absurd h (by simp))
  | exact absurd h (by simp)

theorem decodeUriAux_fuel (f1 : Nat) : ∀ (cs : List Char) (f2 : Nat),
    cs.length < f1 → cs.length < f2 → decodeUriAux f1 cs = decodeUriAux f2 cs := by
  induction f1 with
  | zero => intro cs f2 h1 _; omega
  | succ g ih =>
    intro cs f2 h1 h2
    cases cs with
    | nil =>
      cases f2 with
      | zero => omega
      | succ h => rfl
    | cons c rest =>
      cases f2 with
      | zero => omega
      | succ h =>
        simp only [List.length_cons] at h1 h2
        simp only [decodeUriAux]
        by_cases hc : c = '%'
        · simp only [if_pos hc]
          rcases hr : readPct (c :: rest) with _ | ⟨b, rest1⟩
          · simp only [hr]
          · have hl1 := readPct_length hr
            simp only [List.length_cons] at hl1
            simp only [hr]
            rcases hd : decodePctChar b rest1 with _ | ⟨ch, rest2⟩
            · simp only [hd]
            · have hl2 := decodePctChar_length hd
              simp only [hd]
              rw [ih rest2 h (by omega) (by omega)]
        · simp only [if_neg hc]
          rw [ih rest h (by omega) (by omega)]

theorem decodePctChar_single (n : Nat) (h : n < 128) (t : List Char) :
    decodePctChar n t = some (Char.ofNat n, t) := by
  unfold decodePctChar
  rw [if_pos h]

theorem decodePctChar_two (c : Char) (t : List Char) (h1 : 128 ≤ c.toNat) (h2 : c.toNat < 2048) :
    decodePctChar (192 + c.toNat / 64)
      ('%' :: hexUpper ((128 + c.toNat % 64) / 16) :: hexUpper ((128 + c.toNat % 64) % 16) :: t) =
      some (c, t) := by
  unfold decodePctChar
  rw [if_neg (by omega), if_neg (by omega), if_pos (by omega)]
  simp only [readPct_encode (128 + c.toNat % 64) (by omega) t]
  have hcb : contByte (128 + c.toNat % 64) = true := by
    unfold contByte
    simp
    omega
  rw [if_pos hcb]
  have hn : (192 + c.toNat / 64 - 192) * 64 + (128 + c.toNat % 64 - 128) = c.toNat := by omega
  rw [hn]
  unfold mkChar
  have hv : Nat.isValidChar c.toNat := c.valid
  simp only [if_pos hv, Char.ofNat_toNat]

theorem decodePctChar_three (c : Char) (t : List Char) (h1 : 2048 ≤ c.toNat) (h2 : c.toNat < 65536) :
    decodePctChar (224 + c.toNat / 4096)
      ('%' :: hexUpper ((128 + c.toNat / 64 % 64) / 16) :: hexUpper ((128 + c.toNat / 64 % 64) % 16) ::
       ('%' :: hexUpper ((128 + c.toNat % 64) / 16) :: hexUpper ((128 + c.toNat % 64) % 16) :: t)) =
      some (c, t) := by
  unfold decodePctChar
  rw [if_neg (by omega), if_neg (by omega), if_neg (by omega), if_pos (by omega)]
  simp only [readPct_encode (128 + c.toNat / 64 % 64) (by omega),
    readPct_encode (128 + c.toNat % 64) (by omega)]
  have hcb : (contByte (128 + c.toNat / 64 % 64) && contByte (128 + c.toNat % 64)) = true := by
    unfold contByte
    simp
    omega
  rw [hcb]
  simp only [if_true]
  have hn : (224 + c.toNat / 4096 - 224) * 4096 + (128 + c.toNat / 64 % 64 - 128) * 64 +
      (128 + c.toNat % 64 - 128) = c.toNat := by omega
  rw [hn, if_pos (by omega)]
  unfold mkChar
  have hv : Nat.isValidChar c.toNat := c.valid
  simp only [if_pos hv, Char.ofNat_toNat]

theorem decodePctChar_four (c : Char) (t : List Char) (h1 : 65536 ≤ c.toNat) :
    decodePctChar (240 + c.toNat / 262144)
      ('%' :: hexUpper ((128 + c.toNat / 4096 % 64) / 16) :: hexUpper ((128 + c.toNat / 4096 % 64) % 16) ::
       ('%' :: hexUpper ((128 + c.toNat / 64 % 64) / 16) :: hexUpper ((128 + c.toNat / 64 % 64) % 16) ::
        ('%' :: hexUpper ((128 + c.toNat % 64) / 16) :: hexUpper ((128 + c.toNat % 64) % 16) :: t))) =
      some (c, t) := by
  have h2 : c.toNat < 1114112 := charToNat_lt c
  unfold decodePctChar
  rw [if_neg (by omega), if_neg (by omega), if_neg (by omega), if_neg (by omega), if_pos (by omega)]
  simp only [readPct_encode (128 + c.toNat / 4096 % 64) (by omega),
    readPct_encode (128 + c.toNat / 64 % 64) (by omega),
    readPct_encode (128 + c.toNat % 64) (by omega)]
  have hcb : (contByte (128 + c.toNat / 4096 % 64) && contByte (128 + c.toNat / 64 % 64) &&
      contByte (128 + c.toNat % 64)) = true := by
    unfold contByte
    simp
    omega
  rw [hcb]
  simp only [if_true]
  have hn : (240 + c.toNat / 262144 - 240) * 262144 + (128 + c.toNat / 4096 % 64 - 128) * 4096 +
      (128 + c.toNat / 64 % 64 - 128) * 64 + (128 + c.toNat % 64 - 128) = c.toNat := by omega
  rw [hn, if_pos (by omega)]
  unfold mkChar
  have hv : Nat.isValidChar c.toNat := c.valid
  simp only [if_pos hv, Char.ofNat_toNat]

theorem decodeURIChars_encodeUriChar (c : Char) (t : List Char) :
    decodeURIChars (encodeUriChar c ++ t) = (decodeURIChars t).map (fun l => c :: l) := by
  unfold decodeURIChars
  by_cases hu : isUriUnreserved c
  · have hne := uriUnreserved_ne_pct c hu
    have henc : encodeUriChar c = [c] := by simp [encodeUriChar, hu]
    rw [henc, List.singleton_append]
    simp only [List.length_cons]
    rw [decodeUriAux, if_neg hne]
  · have hlt := charToNat_lt c
    by_cases h1 : c.toNat < 128
    · have henc : encodeUriChar c =
          ['%', hexUpper (c.toNat / 16), hexUpper (c.toNat % 16)] := by
        simp [encodeUriChar, hu, utf8Bytes, h1, percentEncodeByte]
      rw [henc]
      simp only [List.cons_append, List.nil_append, List.length_cons]
      rw [decodeUriAux, if_pos (show ('%' : Char) = '%' from rfl)]
      simp only [readPct_encode c.toNat (by omega) t]
      simp only [decodePctChar_single c.toNat h1 t, Char.ofNat_toNat]
      rw [decodeUriAux_fuel (t.length + 3) t (t.length + 1) (by omega) (by omega)]
    · by_cases h2 : c.toNat < 2048
      · have henc : encodeUriChar c =
            ['%', hexUpper ((192 + c.toNat / 64) / 16), hexUpper ((192 + c.toNat / 64) % 16),
             '%', hexUpper ((128 + c.toNat % 64) / 16), hexUpper ((128 + c.toNat % 64) % 16)] := by
          simp [encodeUriChar, hu, utf8Bytes, h1, h2, percentEncodeByte]
        rw [henc]
        simp only [List.cons_append, List.nil_append, List.length_cons]
        rw [decodeUriAux, if_pos (show ('%' : Char) = '%' from rfl)]
        simp only [readPct_encode (192 + c.toNat / 64) (by omega)]
        simp only [decodePctChar_two c _ (by omega) (by omega)]
        rw [decodeUriAux_fuel (t.length + 6) t (t.length + 1) (by omega) (by omega)]
      · by_cases h3 : c.toNat < 65536
        · have henc : encodeUriChar c =
              ['%', hexUpper ((224 + c.toNat / 4096) / 16), hexUpper ((224 + c.toNat / 4096) % 16),
               '%', hexUpper ((128 + c.toNat / 64 % 64) / 16), hexUpper ((128 + c.toNat / 64 % 64) % 16),
               '%', hexUpper ((128 + c.toNat % 64) / 16), hexUpper ((128 + c.toNat % 64) % 16)] := by
            simp [encodeUriChar, hu, utf8Bytes, h1, h2, h3, percentEncodeByte]
          rw [henc]
          simp only [List.cons_append, List.nil_append, List.length_cons]
          rw [decodeUriAux, if_pos (show ('%' : Char) = '%' from rfl)]
          simp only [readPct_encode (224 + c.toNat / 4096) (by omega)]
          simp only [decodePctChar_three c _ (by omega) (by omega)]
          rw [decodeUriAux_fuel (t.length + 9) t (t.length + 1) (by omega) (by omega)]
        · have henc : encodeUriChar c =
              ['%', hexUpper ((240 + c.toNat / 262144) / 16), hexUpper ((240 + c.toNat / 262144) % 16),
               '%', hexUpper ((128 + c.toNat / 4096 % 64) / 16), hexUpper ((128 + c.toNat / 4096 % 64) % 16),
               '%', hexUpper ((128 + c.toNat / 64 % 64) / 16), hexUpper ((128 + c.toNat / 64 % 64) % 16),
               '%', hexUpper ((128 + c.toNat % 64) / 16), hexUpper ((128 + c.toNat % 64) % 16)] := by
            simp [encodeUriChar, hu, utf8Bytes, h1, h2, h3, percentEncodeByte]
          rw [henc]
          simp only [List.cons_append, List.nil_append, List.length_cons]
          rw [decodeUriAux, if_pos (show ('%' : Char) = '%' from rfl)]
          simp only [readPct_encode (240 + c.toNat / 262144) (by omega)]
          simp only [decodePctChar_four c _ (by omega)]
          rw [decodeUriAux_fuel (t.length + 12) t (t.length + 1) (by omega) (by omega)]

theorem decodeURIChars_encodeList (cs : List Char) :
    decodeURIChars ((cs.map encodeUriChar).flatten) = some cs := by
  induction cs with
  | nil => rfl
  | cons c rest ih =>
    rw [List.map_cons, List.flatten_cons, decodeURIChars_encodeUriChar, ih]
    rfl

theorem b64Val_b64Char : ∀ n < 64, b64Val (b64Char n) = some n := by decide

theorem b64Char_ne_eq : ∀ n < 64, b64Char n ≠ '=' := by decide

theorem atobChunks_btoaChunks : ∀ bs : List Nat, (∀ b ∈ bs, b < 256) →
    atobChunks (btoaChunks bs) = some bs
  | [], _ => rfl
  | [b1], h => by
    have hb1 : b1 < 256 := h b1 (by simp)
    simp [btoaChunks, atobChunks, b64Val_b64Char _ (show b1 / 4 < 64 by omega),
      b64Val_b64Char _ (show b1 % 4 * 16 < 64 by omega)]
    omega
  | [b1, b2], h => by
    have hb1 : b1 < 256 := h b1 (by simp)
    have hb2 : b2 < 256 := h b2 (by simp)
    have hne : b64Char (b2 % 16 * 4) ≠ '=' := b64Char_ne_eq _ (by omega)
    simp [btoaChunks, atobChunks, hne, b64Val_b64Char _ (show b1 / 4 < 64 by omega),
      b64Val_b64Char _ (show b1 % 4 * 16 + b2 / 16 < 64 by omega),
      b64Val_b64Char _ (show b2 % 16 * 4 < 64 by omega)]
    constructor
    · omega
    · omega
  | b1 :: b2 :: b3 :: rest, h => by
    have hb1 : b1 < 256 := h b1 (by simp)
    have hb2 : b2 < 256 := h b2 (by simp)
    have hb3 : b3 < 256 := h b3 (by simp)
    have ih := atobChunks_btoaChunks rest (fun b hb => h b (by simp [hb]))
    have hne3 : b64Char (b2 % 16 * 4 + b3 / 64) ≠ '=' := b64Char_ne_eq _ (by omega)
    have hne4 : b64Char (b3 % 64) ≠ '=' := b64Char_ne_eq _ (by omega)
    simp [btoaChunks, atobChunks, hne3, hne4, ih,
      b64Val_b64Char _ (show b1 / 4 < 64 by omega),
      b64Val_b64Char _ (show b1 % 4 * 16 + b2 / 16 < 64 by omega),
      b64Val_b64Char _ (show b2 % 16 * 4 + b3 / 64 < 64 by omega),
      b64Val_b64Char _ (show b3 % 64 < 64 by omega)]
    refine ⟨by omega, by omega, by omega⟩

theorem utf8Bytes_lt (c : Char) : ∀ b ∈ utf8Bytes c, b < 256 := by
  intro b hb
  have := charToNat_lt c
  simp only [utf8Bytes] at hb
  split_ifs at hb <;> simp at hb <;> omega

theorem hexUpper_toNat_lt : ∀ n < 16, (hexUpper n).toNat < 256 := by decide

theorem uriUnreserved_toNat_lt (c : Char) (h : isUriUnreserved c = true) : c.toNat < 256 := by
  unfold isUriUnreserved at h
  simp only [Bool.or_eq_true, decide_eq_true_eq] at h
  rcases h with (((((((((h | h) | h) | h) | h) | h) | h) | h) | h) | h) | h
  · simp [Char.isAlpha, Char.isUpper, Char.isLower] at h
    rcases h with ⟨h1, h2⟩ | ⟨h1, h2⟩
    · have : c.toNat ≤ 90 := h2
      omega
    · have : c.toNat ≤ 122 := h2
      omega
  · simp [Char.isDigit] at h
    have : c.toNat ≤ 57 := h.2
    omega
  all_goals subst h
  all_goals decide

theorem encodeUriChar_toNat_lt (c : Char) : ∀ x ∈ encodeUriChar c, x.toNat < 256 := by
  intro x hx
  unfold encodeUriChar at hx
  by_cases hu : isUriUnreserved c
  · rw [if_pos hu] at hx
    simp at hx
    subst hx
    exact uriUnreserved_toNat_lt _ hu
  · rw [if_neg hu] at hx
    simp only [List.mem_flatten, List.mem_map] at hx
    obtain ⟨l, ⟨b, hb, hl⟩, hxl⟩ := hx
    have hb256 := utf8Bytes_lt c b hb
    subst hl
    simp [percentEncodeByte] at hxl
    rcases hxl with h | h | h
    · subst h
      decide
    · subst h
      exact hexUpper_toNat_lt _ (by omega)
    · subst h
      exact hexUpper_toNat_lt _ (by omega)

theorem encodeURIComponent_lt (s : String) :
    ((s.data.map encodeUriChar).flatten).all (fun c => c.toNat < 256) = true := by
  rw [List.all_eq_true]
  intro x hx
  simp only [List.mem_flatten, List.mem_map] at hx
  obtain ⟨l, ⟨c, _, hl⟩, hxl⟩ := hx
  subst hl
  simpa using encodeUriChar_toNat_lt c x hxl

theorem atob_btoa (s : String) (hs : ∀ c ∈ s.data, c.toNat < 256) :
    atob (String.mk (btoaChunks (s.data.map Char.toNat))) = some s := by
  unfold atob
  rw [show (String.mk (btoaChunks (s.data.map Char.toNat))).data =
    btoaChunks (s.data.map Char.toNat) from rfl]
  rw [atobChunks_btoaChunks (s.data.map Char.toNat) (by
    intro b hb
    simp only [List.mem_map] at hb
    obtain ⟨c, hc, rfl⟩ := hb
    exact hs c hc)]
  simp only [List.map_map]
  have h2 : s.data.map (Char.ofNat ∘ Char.toNat) = s.data.map id :=
    List.map_congr_left (fun c _ => by simp [Char.ofNat_toNat])
  rw [h2, List.map_id]

theorem compress_eq (s : String) :
    compress s = String.mk (btoaChunks (((s.data.map encodeUriChar).flatten).map Char.toNat)) := by
  unfold compress btoa
  rw [show (encodeURIComponent s).data = (s.data.map encodeUriChar).flatten from rfl,
    if_pos (encodeURIComponent_lt s)]

theorem decodeURI_encodeURI (s : String) :
    decodeURIComponentStr (String.mk ((s.data.map encodeUriChar).flatten)) = some s := by
  unfold decodeURIComponentStr
  simp only [decodeURIChars_encodeList s.data]

theorem decompress_compress (s : String) : decompress (compress s) = s := by
  rw [compress_eq]
  unfold decompress
  have h1 := atob_btoa (String.mk ((s.data.map encodeUriChar).flatten)) (by
    intro c hc
    have h2 := encodeURIComponent_lt s
    rw [List.all_eq_true] at h2
    simpa using h2 c hc)
  simp only [h1, decodeURI_encodeURI s]

theorem b64Char_class : ∀ n < 64,
    ((b64Char n).isAlpha || (b64Char n).isDigit || b64Char n = '+' || b64Char n = '/' ||
      b64Char n = '=') = true := by decide

theorem mem_btoaChunks_class : ∀ (bs : List Nat), (∀ b ∈ bs, b < 256) →
    ∀ c ∈ btoaChunks bs, (c.isAlpha || c.isDigit || c = '+' || c = '/' || c = '=') = true
  | [], _, c, hc => absurd hc (by simp [btoaChunks])
  | [b1], h, c, hc => by
    have hb1 : b1 < 256 := h b1 (by simp)
    simp only [btoaChunks, List.mem_cons, List.not_mem_nil, or_false] at hc
    rcases hc with rfl | rfl | rfl | rfl
    · exact b64Char_class _ (show b1 / 4 < 64 by omega)
    · exact b64Char_class _ (show b1 % 4 * 16 < 64 by omega)
    · decide
    · decide
  | [b1, b2], h, c, hc => by
    have hb1 : b1 < 256 := h b1 (by simp)
    have hb2 : b2 < 256 := h b2 (by simp)
    simp only [btoaChunks, List.mem_cons, List.not_mem_nil, or_false] at hc
    rcases hc with rfl | rfl | rfl | rfl
    · exact b64Char_class _ (show b1 / 4 < 64 by omega)
    · exact b64Char_class _ (show b1 % 4 * 16 + b2 / 16 < 64 by omega)
    · exact b64Char_class _ (show b2 % 16 * 4 < 64 by omega)
    · decide
  | b1 :: b2 :: b3 :: rest, h, c, hc => by
    have hb1 : b1 < 256 := h b1 (by simp)
    have hb2 : b2 < 256 := h b2 (by simp)
    have hb3 : b3 < 256 := h b3 (by simp)
    simp only [btoaChunks, List.mem_cons] at hc
    rcases hc with rfl | rfl | rfl | rfl | hc
    · exact b64Char_class _ (show b1 / 4 < 64 by omega)
    · exact b64Char_class _ (show b1 % 4 * 16 + b2 / 16 < 64 by omega)
    · exact b64Char_class _ (show b2 % 16 * 4 + b3 / 64 < 64 by omega)
    · exact b64Char_class _ (show b3 % 64 < 64 by omega)
    · exact mem_btoaChunks_class rest (fun b hb => h b (by simp [hb])) c hc

theorem encodeUriChar_ne_nil (c : Char) : encodeUriChar c ≠ [] := by
  unfold encodeUriChar
  by_cases hu : isUriUnreserved c
  · simp [hu]
  · rw [if_neg hu]
    have := charToNat_lt c
    simp only [utf8Bytes]
    split_ifs <;> simp [percentEncodeByte]

theorem btoaChunks_ne_nil : ∀ bs : List Nat, bs ≠ [] → btoaChunks bs ≠ []
  | [], h => absurd rfl h
  | [_], _ => by simp [btoaChunks]
  | [_, _], _ => by simp [btoaChunks]
  | _ :: _ :: _ :: _, _ => by simp [btoaChunks]

theorem isB64String_compress (s : String) (hs : s ≠ "") : isB64String (compress s) = true := by
  rw [compress_eq]
  unfold isB64String
  rw [Bool.and_eq_true, List.all_eq_true]
  constructor
  · have hd : s.data ≠ [] := by
      intro hnil
      apply hs
      cases s
      simp only at hnil
      rw [hnil]
    have hfl : (s.data.map encodeUriChar).flatten ≠ [] := by
      cases hsd : s.data with
      | nil => exact absurd hsd hd
      | cons c rest =>
        simp only [List.map_cons, List.flatten_cons]
        intro happ
        exact encodeUriChar_ne_nil c (List.append_eq_nil.mp happ).1
    have hmap : ((s.data.map encodeUriChar).flatten).map Char.toNat ≠ [] := by
      cases hfl2 : (s.data.map encodeUriChar).flatten with
      | nil => exact absurd hfl2 hfl
      | cons a l => simp
    have hbne := btoaChunks_ne_nil _ hmap
    show (!(btoaChunks (((s.data.map encodeUriChar).flatten).map Char.toNat)).isEmpty) = true
    cases hbt : btoaChunks (((s.data.map encodeUriChar).flatten).map Char.toNat) with
    | nil => exact absurd hbt hbne
    | cons a l => rfl
  · intro c hc
    refine mem_btoaChunks_class _ ?_ c hc
    intro b hb
    simp only [List.mem_map] at hb
    obtain ⟨x, hx, rfl⟩ := hb
    have h2 := encodeURIComponent_lt s
    rw [List.all_eq_true] at h2
    simpa using h2 x hx

theorem getItem_setItem_self (st : Store) (k v : String) :
    getItem (setItem st k v) k = some v := by
  induction st with
  | nil => simp [setItem, getItem]
  | cons e st ih =>
    by_cases h : e.1 = k
    · simp [setItem, getItem, h]
    · simp [setItem, getItem, h]
      exact ih

theorem getItem_setItem_ne (st : Store) (k v : String) (k2 : String) (h : k2 ≠ k) :
    getItem (setItem st k v) k2 = getItem st k2 := by
  induction st with
  | nil => simp [setItem, getItem, Ne.symm h]
  | cons e st ih =>
    by_cases he : e.1 = k
    · simp [setItem, getItem, he, h, Ne.symm h]
    · by_cases he2 : e.1 = k2
      · simp [setItem, getItem, he, he2, h]
      · simp [setItem, getItem, he, he2, h]
        exact ih

theorem metaKey_ne (k : String) : "__meta_" ++ k ≠ k := by
  intro h
  have h2 := congrArg String.length h
  rw [String.length_append] at h2
  have h7 : ("__meta_" : String).length = 7 := rfl
  omega

theorem natDigits_ne_nil : ∀ (fuel n : Nat), fuel ≠ 0 → natDigits fuel n ≠ []
  | 0, _, h => absurd rfl h
  | fuel + 1, n, _ => by
    simp only [natDigits]
    split_ifs
    · simp
    · simp

theorem jsonStringify_length_pos (v : Json) : 0 < (jsonStringify v).length := by
  cases v with
  | null => decide
  | bool b => cases b <;> decide
  | num n =>
    show 0 < (intToString n).length
    unfold intToString
    split_ifs
    · rw [String.length_append]
      have h1 : ("-" : String).length = 1 := rfl
      omega
    · show 0 < (natToString n.natAbs).length
      unfold natToString
      have hne := natDigits_ne_nil (n.natAbs + 1) n.natAbs (by omega)
      show 0 < (natDigits (n.natAbs + 1) n.natAbs).length
      cases hd : natDigits (n.natAbs + 1) n.natAbs with
      | nil => exact absurd hd hne
      | cons a l => simp
  | str s =>
    show 0 < (quoteJsonString s).length
    unfold quoteJsonString
    show 0 < ('"' :: ((s.data.map escapeJsonChar).flatten ++ ['"'])).length
    simp
  | arr xs =>
    show 0 < ("[" ++ stringifyElems xs ++ "]").length
    rw [String.length_append, String.length_append]
    have h1 : ("[" : String).length = 1 := rfl
    omega
  | obj fs =>
    show 0 < (lbrace ++ stringifyFields fs ++ rbrace).length
    rw [String.length_append, String.length_append]
    have h1 : lbrace.length = 1 := rfl
    omega

theorem jsonStringify_ne_empty (v : Json) : jsonStringify v ≠ "" := by
  intro h
  have h2 := jsonStringify_length_pos v
  rw [h] at h2
  exact absurd h2 (by decide)

theorem isB64String_ne_empty {x : String} (h : isB64String x = true) : x ≠ "" := by
  intro hx
  rw [hx] at h
  exact absurd h (by decide)

/-- C8 (amended): the `safeSetItem`/`safeGetItem` round-trip recovers the
serialized value whenever the payload is large enough to be stored
compressed, or its serialization escapes the read path's base64 heuristic
(it fails the regex, or `atob`/`decodeURIComponent` throw so that
`decompress` returns its input unchanged). -/
theorem c8_roundtrip (st : Store) (k : String) (v : Json) (now : Int)
    (hk : k ≠ "")
    (hgood : 10240 < (jsonStringify v).length ∨ isB64String (jsonStringify v) = false ∨
      decompress (jsonStringify v) = jsonStringify v) :
    RoundTripSpec st k v now := by
  have hs0 := jsonStringify_ne_empty v
  have hstore : (safeSetItem st k v now true).2 =
      updateMetadata (setItem st k (storedText v)) k now := by
    unfold safeSetItem storedText
    rw [if_neg hk]
    by_cases hlen : 10240 < (jsonStringify v).length
    · rw [if_pos (by simp [hlen]), if_pos hlen]
    · rw [if_neg (by simp [hlen]), if_neg hlen]
  have hget : getItem (safeSetItem st k v now true).2 k = some (storedText v) := by
    rw [hstore]
    unfold updateMetadata
    rw [getItem_setItem_ne _ _ _ _ (fun h => metaKey_ne k h.symm), getItem_setItem_self]
  have htext : safeGetItemText (safeSetItem st k v now true).2 k =
      some (jsonStringify v) := by
    unfold safeGetItemText
    rw [if_neg hk]
    simp only [hget]
    by_cases hlen : 10240 < (jsonStringify v).length
    · have hst : storedText v = compress (jsonStringify v) := by
        unfold storedText
        rw [if_pos hlen]
      rw [hst]
      have h64 := isB64String_compress _ hs0
      rw [if_neg (isB64String_ne_empty h64), if_pos h64, decompress_compress]
    · have hst : storedText v = jsonStringify v := by
        unfold storedText
        rw [if_neg hlen]
      rw [hst, if_neg hs0]
      by_cases h64 : isB64String (jsonStringify v)
      · rw [if_pos h64]
        rcases hgood with h | h | h
        · exact absurd h hlen
        · rw [h] at h64
          exact absurd h64 (by decide)
        · rw [h]
      · rw [if_neg h64]
  have hfst : (safeSetItem st k v now true).1 = true := by
    unfold safeSetItem
    rw [if_neg hk]
  refine ⟨hfst, htext, ?_⟩
  unfold safeGetItem
  rw [htext, Option.some_bind]

theorem c8_witness : RoundTripSpec [] "k" (Json.obj [("a", Json.num 1)]) 5 :=
  c8_roundtrip [] "k" (Json.obj [("a", Json.num 1)]) 5 (by decide)
    (Or.inr (Or.inl (by decide)))

/-- C8 counterexample: the number 1234 is stored as the text `1234`, which
matches the base64 heuristic and survives `atob`/`decodeURIComponent`, so
the read parses mangled bytes and returns null instead of 1234. -/
theorem c8_counterexample :
    (safeSetItem [] "k" (Json.num 1234) 0 true).1 = true ∧
    (safeGetItem (safeSetItem [] "k" (Json.num 1234) 0 true).2 "k").isNone = true := by
  decide

/-- C10: `goToPage` only emits pages in `[1, totalPages]` (forwarding an
in-range request, clamping an overshoot, dropping a request below 1),
prev/next fire only off the respective edge, and the page components'
`handlePageChange` clamp stays in `[1, totalPages]`. -/
theorem c10_pagination_in_range (page totalPages : Int) (anim : Bool)
    (htp : 1 ≤ totalPages) : PaginationRangeSpec page totalPages anim := by
  refine ⟨?_, ?_, ?_, ?_, ?_, ?_, ?_⟩
  · intro n v h
    unfold goToPage at h
    split_ifs at h with h1 h2 h3
    all_goals cases h
    all_goals omega
  · intro n h1 h2 ha
    unfold goToPage
    rw [ha, if_neg (by simp), if_pos ⟨h1, h2⟩]
  · intro n h1 ha
    unfold goToPage
    rw [ha, if_neg (by simp), if_neg (by omega), if_pos h1]
  · intro n h1
    unfold goToPage
    split_ifs with h2 h3 h4 <;> first | rfl | omega
  · intro v h
    unfold handlePrevPage at h
    split_ifs at h with h1
    all_goals cases h
    all_goals exact ⟨h1.1, rfl⟩
  · intro v h
    unfold handleNextPage at h
    split_ifs at h with h1
    all_goals cases h
    all_goals exact ⟨h1.1, rfl⟩
  · intro n
    unfold pageClamp
    split_ifs <;> constructor <;> omega

theorem c10_witness : PaginationRangeSpec 3 10 false :=
  c10_pagination_in_range 3 10 false (by decide)

theorem posGet_posSet_self (pos : PosMap) (k : String) (y : Int) :
    posGet (posSet pos k y) k = some y := by
  induction pos with
  | nil => simp [posSet, posGet]
  | cons e m ih =>
    by_cases h : e.1 = k
    · simp [posSet, posGet, h]
    · simp [posSet, posGet, h]
      exact ih

/-- C4 (amended): the scroll offset is saved under the current
`${searchTerm || 'browse'}_${page}` key on every in-range page change
(which also resets the restore flag); an out-of-range request clamps the
page without saving and without resetting the flag; once a load finishes
with the flag reset, the window is scrolled to the offset remembered for
the exact current key, or to 0 when none is remembered. -/
theorem c4_scroll_memory (newPage page totalPages : Int) (searchTerm : String)
    (scrollY : Int) (pos : PosMap) (flag : Bool) :
    ScrollMemorySpec newPage page totalPages searchTerm scrollY pos flag := by
  refine ⟨?_, ?_, ?_, ?_, ?_, ?_, ?_⟩
  · intro h1 h2
    unfold movieHandlePageChange
    rw [if_pos h1, if_neg (by omega)]
  · intro h1 h2
    unfold movieHandlePageChange
    rw [if_pos h2, if_pos h1]
  · intro h1
    unfold movieHandlePageChange
    rw [if_neg (by omega)]
  · unfold scrollRestoreTarget savePosition hasPosition getPosition
    rw [if_pos (by simp)]
    rw [posGet_posSet_self]
    simp
  · intro h
    unfold scrollRestoreTarget
    rw [if_pos (by simp), if_neg (by simp [h])]
  · unfold scrollRestoreTarget
    simp
  · unfold scrollRestoreTarget
    simp

theorem c4_witness : ScrollMemorySpec 2 1 10 "" 500 [] true :=
  c4_scroll_memory 2 1 10 "" 500 [] true

/-- C4 counterexample: `handlePageChange(501)` with 500 total pages on
page 3 changes the page to 500 but saves nothing and leaves the restore
flag set, so no scroll (neither restore nor to-top) runs for that change. -/
theorem c4_counterexample :
    movieHandlePageChange 501 3 500 "" 777 [] true = (500, [], true) ∧
    (500 : Int) ≠ 3 ∧
    scrollRestoreTarget false true "" 500 [] = none := by
  refine ⟨?_, by decide, by decide⟩
  decide

/-- C3: a fetched poster blob is persisted (as base64 with a timestamp)
exactly when its size is at most `300 * 1024` bytes; a larger blob is
still displayed, from the network, but never written to the cache. -/
theorem c3_image_size_guard (mem : List (String × String)) (st : Store) (now : Int)
    (pid : Int) (posterPath : String) (blobSize : Nat) (base64data : String)
    (hmem : memLookup mem (intToString pid ++ "_" ++ posterPath) = none)
    (hfresh : listItemCacheFresh st now pid = false) :
    ImageCacheGuardSpec mem st now pid posterPath blobSize base64data := by
  constructor
  · intro hbig
    unfold listItemImageLoad
    simp only [hmem]
    rw [if_neg (by simp [hfresh])]
    rw [if_pos hbig]
    constructor
    · rfl
    · simp
  · intro hsmall
    unfold listItemImageLoad
    simp only [hmem]
    rw [if_neg (by simp [hfresh]),
      if_neg (show ¬(300 * 1024 < blobSize) by omega)]
    constructor
    · rfl
    · rfl

theorem c3_witness : ImageCacheGuardSpec [] [] 10 7 "/p.jpg" 200000 "data:image/jpeg;base64,AA" :=
  c3_image_size_guard [] [] 10 7 "/p.jpg" 200000 "data:image/jpeg;base64,AA" (by decide) (by decide)

theorem cacheFresh_spec {st : Store} {dk tk : String} {now exp : Int}
    (h : cacheFresh st dk tk now exp = true) :
    ∃ ts t, getItem st tk = some ts ∧ jsParseInt ts = some t ∧ now - t < exp := by
  unfold cacheFresh at h
  split at h
  · rename_i d ts hd hts
    rw [Bool.and_eq_true, Bool.and_eq_true] at h
    obtain ⟨⟨h1, h2⟩, h3⟩ := h
    split at h3
    · rename_i t hp
      rw [decide_eq_true_eq] at h3
      exact ⟨ts, t, hts, hp, h3⟩
    · exact Bool.noConfusion h3
  · exact Bool.noConfusion h

theorem fetchMoviesMiss_flags (key : String) (now pageNum : Int) (api : Option Json) :
    (fetchMoviesMiss key now pageNum api).usedCache = false ∧
    (fetchMoviesMiss key now pageNum api).fetched = true := by
  cases api with
  | none => exact ⟨rfl, rfl⟩
  | some resp =>
    simp only [fetchMoviesMiss]
    by_cases ht : jsTruthy resp
    · rw [if_pos ht]
      rcases hr : objField resp "results" with _ | j
      · exact ⟨rfl, rfl⟩
      · cases j <;> try exact ⟨rfl, rfl⟩
        rename_i xs
        simp only []
        by_cases hx : xs.isEmpty
        · rw [if_pos hx]
          exact ⟨rfl, rfl⟩
        · rw [if_neg hx]
          exact ⟨rfl, rfl⟩
    · rw [if_neg ht]
      exact ⟨rfl, rfl⟩

theorem fetchTvShowsMiss_flags (now pageNum : Int) (api : Option Json) :
    (fetchTvShowsMiss now pageNum api).usedCache = false ∧
    (fetchTvShowsMiss now pageNum api).fetched = true := by
  cases api with
  | none => exact ⟨rfl, rfl⟩
  | some resp =>
    simp only [fetchTvShowsMiss]
    by_cases ht : jsTruthy resp
    · rw [if_pos ht]
      rcases hr : objField resp "results" with _ | j
      · exact ⟨rfl, rfl⟩
      · cases j <;> try exact ⟨rfl, rfl⟩
        rename_i xs
        simp only []
        by_cases hx : xs.isEmpty
        · rw [if_pos hx]
          exact ⟨rfl, rfl⟩
        · rw [if_neg hx]
          exact ⟨rfl, rfl⟩
    · rw [if_neg ht]
      exact ⟨rfl, rfl⟩

theorem fetchMoviesStep_hit {st : Store} {now pageNum : Int} {api : Option Json}
    (h : (fetchMoviesStep st now pageNum api).usedCache = true) :
    ∃ ts t,
      getItem st ("cachedMovies_" ++ intToString (min pageNum 500) ++ "_timestamp") = some ts ∧
      jsParseInt ts = some t ∧ now - t < 30 * 60 * 1000 := by
  simp only [fetchMoviesStep] at h
  split at h
  · rename_i hc
    exact cacheFresh_spec hc
  · rw [(fetchMoviesMiss_flags _ _ _ _).1] at h
    exact Bool.noConfusion h

theorem fetchMoviesStep_cases (st : Store) (now pageNum : Int) (api : Option Json) :
    (fetchMoviesStep st now pageNum api).usedCache = true ∨
    (fetchMoviesStep st now pageNum api).fetched = true := by
  simp only [fetchMoviesStep]
  split
  · split
    · exact Or.inl rfl
    · exact Or.inr (fetchMoviesMiss_flags _ _ _ _).2
  · exact Or.inr (fetchMoviesMiss_flags _ _ _ _).2

theorem fetchTvShowsStep_hit {st : Store} {now pageNum : Int} {api : Option Json}
    (h : (fetchTvShowsStep st now pageNum api).usedCache = true) :
    ∃ ts t, getItem st "cachedTvShowsTimestamp" = some ts ∧
      jsParseInt ts = some t ∧ now - t < 30 * 60 * 1000 := by
  simp only [fetchTvShowsStep] at h
  split at h
  · rename_i hc
    exact cacheFresh_spec hc
  · rw [(fetchTvShowsMiss_flags _ _ _).1] at h
    exact Bool.noConfusion h

theorem fetchTvShowsStep_cases (st : Store) (now pageNum : Int) (api : Option Json) :
    (fetchTvShowsStep st now pageNum api).usedCache = true ∨
    (fetchTvShowsStep st now pageNum api).fetched = true := by
  simp only [fetchTvShowsStep]
  repeat' split
  all_goals first
    | exact Or.inl rfl
    | exact Or.inr (fetchTvShowsMiss_flags _ _ _).2

theorem searchMoviesHit_fresh {st : Store} {now : Int} {query : String} {pageNum : Int}
    (h : searchMoviesCacheHit st now query pageNum = true) :
    ∃ ts t, getItem st (searchMoviesKey query pageNum ++ "_timestamp") = some ts ∧
      jsParseInt ts = some t ∧ now - t < 30 * 60 * 1000 := by
  unfold searchMoviesCacheHit at h
  rw [Bool.and_eq_true] at h
  exact cacheFresh_spec h.1

theorem tvSearchHit_fresh {st : Store} {now : Int} {searchTerm : String}
    (h : tvSearchCacheHit st now searchTerm = true) :
    ∃ ts t, getItem st (tvSearchKey searchTerm ++ "_timestamp") = some ts ∧
      jsParseInt ts = some t ∧ now - t < 60 * 60 * 1000 := by
  unfold tvSearchCacheHit at h
  split at h
  · rename_i d ts hd hts
    rw [Bool.and_eq_true, Bool.and_eq_true, Bool.and_eq_true, Bool.and_eq_true] at h
    obtain ⟨⟨⟨⟨h1, h2⟩, h3⟩, h4⟩, h5⟩ := h
    split at h4
    · rename_i t hp
      rw [decide_eq_true_eq] at h4
      exact ⟨ts, t, hts, hp, h4⟩
    · exact Bool.noConfusion h4
  · exact Bool.noConfusion h

theorem listItemFresh_spec {st : Store} {now : Int} {pid : Int}
    (h : listItemCacheFresh st now pid = true) :
    ∃ ts d, safeGetItem st ("image_" ++ intToString pid ++ "_timestamp") = some ts ∧
      jsNumSub now ts = some d ∧ d < 7 * 24 * 60 * 60 * 1000 := by
  unfold listItemCacheFresh at h
  split at h
  · rename_i img ts himg hts
    rw [Bool.and_eq_true, Bool.and_eq_true] at h
    obtain ⟨⟨h1, h2⟩, h3⟩ := h
    split at h3
    · rename_i d hd
      rw [decide_eq_true_eq] at h3
      exact ⟨ts, d, hts, hd, h3⟩
    · exact Bool.noConfusion h3
  · exact Bool.noConfusion h

/-- C2: every cached-response read is a hit only when `now` minus the
stored timestamp is strictly below the expiry window — 30 minutes for the
paginated movie listing, the TV listing and the per-page movie search
caches, 60 minutes for the aggregated TV-show search cache, and 7 days for
persisted poster images — and a listing read that does not use the cache
fetches from the API. -/
theorem c2_cache_freshness (st : Store) (now pageNum : Int) (api : Option Json)
    (query searchTerm : String) (pid : Int) :
    FreshnessSpec st now pageNum api query searchTerm pid := by
  refine ⟨fun h => fetchMoviesStep_hit h, fun h => ?_,
    fun h => fetchTvShowsStep_hit h, fun h => ?_,
    fun h => searchMoviesHit_fresh h, fun h => tvSearchHit_fresh h,
    fun h => listItemFresh_spec h⟩
  · rcases fetchMoviesStep_cases st now pageNum api with hu | hf
    · rw [h] at hu
      exact Bool.noConfusion hu
    · exact hf
  · rcases fetchTvShowsStep_cases st now pageNum api with hu | hf
    · rw [h] at hu
      exact Bool.noConfusion hu
    · exact hf

/-- C5 (amended): every successful cache write stores payload and write
time together; the movie listing and search caches use the sibling key
`key ++ "_timestamp"`, but the TV listing pair is
`cachedTvShows`/`cachedTvShowsTimestamp`, whose timestamp key is not
`key ++ "_timestamp"`. -/
theorem c5_cache_write_pairs (key query searchTerm : String) (now pageNum : Int)
    (resp data allResults : Json) (xs : List Json)
    (ht : jsTruthy resp = true)
    (hr : objField resp "results" = some (Json.arr xs))
    (hx : xs.isEmpty = false)
    (hs : searchTerm ≠ "") :
    CacheWritePairSpec key query searchTerm now pageNum resp data allResults xs := by
  refine ⟨?_, rfl, ?_, ?_⟩
  · simp only [fetchMoviesMiss, if_pos ht, hr]
    rw [if_neg (by simp [hx])]
    rfl
  · unfold tvSearchWrites
    rw [if_pos hs]
    rfl
  · refine ⟨?_, by decide⟩
    simp only [fetchTvShowsMiss, if_pos ht, hr]
    rw [if_neg (by simp [hx])]
    rfl

theorem c5_witness :
    CacheWritePairSpec "cachedMovies_1" "q" "t" 1000 1 c5Resp Json.null
      (Json.arr []) [Json.num 7] :=
  c5_cache_write_pairs "cachedMovies_1" "q" "t" 1000 1 c5Resp Json.null
    (Json.arr []) [Json.num 7] rfl rfl rfl (by decide)

/-- C5 counterexample: the TV listing write does store payload and
timestamp together, but the timestamp key `cachedTvShowsTimestamp` is not
the claimed `key ++ "_timestamp"` sibling of `cachedTvShows`. -/
theorem c5_counterexample :
    (fetchTvShowsMiss 1000 1 (some c5Resp)).writes.map Prod.fst =
      ["cachedTvShows", "cachedTvShowsTimestamp"] ∧
    "cachedTvShowsTimestamp" ≠ "cachedTvShows" ++ "_timestamp" :=
  ⟨rfl, by decide⟩

/-- C6 (amended): a fresh parseable movie cache entry is served without a
network call; the TV cache is served without a network call only when it
also records the requested page, and refetches on a page mismatch even with
a fresh entry; a miss fetches from the API, and a successful non-empty
response is written to the cache with its timestamp, its posters are
preloaded, and its results are rendered. -/
theorem c6_fetch_flow (st : Store) (now pageNum : Int) (api : Option Json) :
    FetchFlowSpec st now pageNum api := by
  refine ⟨?_, ?_, ?_, ?_, ?_, ?_⟩
  · intro parsed hc hp
    simp only [movieKey] at hc hp
    simp only [fetchMoviesStep]
    rw [if_pos hc]
    simp only [hp]
  · intro hc
    simp only [movieKey] at hc
    simp only [fetchMoviesStep]
    rw [if_neg (by simp only [hc]; exact Bool.false_ne_true)]
    exact fetchMoviesMiss_flags _ _ _ _
  · intro resp xs hapi ht hr hx hc
    subst hapi
    simp only [movieKey] at hc ⊢
    simp only [fetchMoviesStep]
    rw [if_neg (by simp only [hc]; exact Bool.false_ne_true)]
    simp only [fetchMoviesMiss, if_pos ht, hr]
    rw [if_neg (by simp [hx])]
    exact ⟨rfl, rfl, rfl⟩
  · intro parsed p hc hp hpg hpe
    simp only [fetchTvShowsStep]
    rw [if_pos hc]
    simp only [hp, hpg]
    rw [if_pos hpe]
  · intro parsed p hc hp hpg hpe
    simp only [fetchTvShowsStep]
    rw [if_pos hc]
    simp only [hp, hpg]
    rw [if_neg hpe]
    exact fetchTvShowsMiss_flags _ _ _
  · intro resp xs hapi ht hr hx hc
    subst hapi
    simp only [fetchTvShowsStep]
    rw [if_neg (by simp only [hc]; exact Bool.false_ne_true)]
    simp only [fetchTvShowsMiss, if_pos ht, hr]
    rw [if_neg (by simp [hx])]
    exact ⟨rfl, rfl, rfl⟩

theorem c6_witness :
    fetchMoviesStep c6MovieStore 1000 1 none =
      { usedCache := true, fetched := false,
        rendered := objField c6Parsed "results", errorSet := false,
        writes := [], preloads := [], pageReset := none } :=
  (c6_fetch_flow c6MovieStore 1000 1 none).1 c6Parsed rfl rfl

/-- C6 counterexample: the TV store holds a fresh, parseable cache entry,
yet a request for page 2 does not use it and fetches from the API, because
the single `cachedTvShows` entry records page 1. -/
theorem c6_counterexample :
    cacheFresh c6TvStore "cachedTvShows" "cachedTvShowsTimestamp" 1000
        (30 * 60 * 1000) = true ∧
    (jsonParse ((getItem c6TvStore "cachedTvShows").getD "")).isSome = true ∧
    (fetchTvShowsStep c6TvStore 1000 2 none).usedCache = false ∧
    (fetchTvShowsStep c6TvStore 1000 2 none).fetched = true :=
  ⟨rfl, rfl, rfl, rfl⟩

theorem sumSizes_nil : sumSizes [] = 0 := rfl

theorem sumSizes_cons (i : LRUItem) (l : List LRUItem) :
    sumSizes (i :: l) = i.size + sumSizes l := by
  simp [sumSizes]

theorem lruLoop_eq (need : Nat) (l : List LRUItem) :
    ∀ (freed : Nat) (s : Store), freed < need →
      lruLoop need l freed s =
        (freed + sumSizes (lruTaken (need - freed) l),
         removeLRUItems s (lruTaken (need - freed) l)) := by
  induction l with
  | nil =>
    intro freed s _
    simp [lruLoop, lruTaken, sumSizes, removeLRUItems]
  | cons i rest ih =>
    intro freed s h
    simp only [lruLoop, lruTaken]
    by_cases hp : isProtectedKey i.key
    · rw [if_pos hp, if_pos hp]
      exact ih freed s h
    · rw [if_neg hp, if_neg hp]
      by_cases hstop : need ≤ freed + i.size
      · rw [if_pos hstop, if_pos (show need - freed ≤ i.size by omega)]
        rw [Prod.mk.injEq]
        refine ⟨by simp [sumSizes_cons, sumSizes_nil], rfl⟩
      · rw [if_neg hstop, if_neg (show ¬(need - freed ≤ i.size) by omega)]
        rw [ih (freed + i.size) _ (by omega)]
        rw [Prod.mk.injEq]
        constructor
        · rw [sumSizes_cons, Nat.sub_sub]
          omega
        · rw [Nat.sub_sub]
          rfl

theorem lruTaken_sublist (l : List LRUItem) :
    ∀ need : Nat, List.Sublist (lruTaken need l) l := by
  induction l with
  | nil =>
    intro need
    simp [lruTaken]
  | cons i rest ih =>
    intro need
    simp only [lruTaken]
    by_cases hp : isProtectedKey i.key
    · rw [if_pos hp]
      exact List.Sublist.cons i (ih need)
    · rw [if_neg hp]
      by_cases hs : need ≤ i.size
      · rw [if_pos hs]
        exact List.Sublist.cons₂ i (List.nil_sublist rest)
      · rw [if_neg hs]
        exact List.Sublist.cons₂ i (ih (need - i.size))

theorem lruTaken_stop (l : List LRUItem) :
    ∀ need : Nat, 0 < need → sumSizes (lruTaken need l).dropLast < need := by
  induction l with
  | nil =>
    intro need h
    simpa [lruTaken, sumSizes] using h
  | cons i rest ih =>
    intro need h
    simp only [lruTaken]
    by_cases hp : isProtectedKey i.key
    · rw [if_pos hp]
      exact ih need h
    · rw [if_neg hp]
      by_cases hs : need ≤ i.size
      · rw [if_pos hs]
        simpa [sumSizes] using h
      · rw [if_neg hs]
        rcases hr : lruTaken (need - i.size) rest with _ | ⟨j, t2⟩
        · simpa [sumSizes] using h
        · have h2 := ih (need - i.size) (by omega)
          rw [hr] at h2
          rw [List.dropLast_cons₂, sumSizes_cons]
          omega

theorem lruTaken_exhaust (l : List LRUItem) :
    ∀ need : Nat, sumSizes (lruTaken need l) < need →
      lruTaken need l = l.filter (fun i => ! (isProtectedKey i.key)) := by
  induction l with
  | nil =>
    intro need _
    rfl
  | cons i rest ih =>
    intro need h
    simp only [lruTaken] at h ⊢
    simp only [List.filter_cons]
    by_cases hp : isProtectedKey i.key
    · have hcond : ¬((!isProtectedKey i.key) = true) := by simp [hp]
      rw [if_pos hp] at h ⊢
      rw [if_neg hcond]
      exact ih need h
    · rw [Bool.not_eq_true] at hp
      have hnp : ¬(isProtectedKey i.key = true) := by simp [hp]
      have hcond : (!isProtectedKey i.key) = true := by simp [hp]
      rw [if_neg hnp] at h ⊢
      rw [if_pos hcond]
      by_cases hs : need ≤ i.size
      · rw [if_pos hs] at h
        rw [sumSizes_cons, sumSizes_nil] at h
        omega
      · rw [if_neg hs] at h ⊢
        rw [sumSizes_cons] at h
        rw [ih (need - i.size) (by omega)]

theorem getItem_removeLRUItems_none (l : List LRUItem) :
    ∀ (st : Store) (k : String), getItem st k = none →
      getItem (removeLRUItems st l) k = none := by
  induction l with
  | nil =>
    intro st k h
    exact h
  | cons i t ih =>
    intro st k h
    exact ih _ _ (getItem_removeItem_none _ _ _ (getItem_removeItem_none _ _ _ h))

theorem getItem_removeLRUItems_mem (l : List LRUItem) (i : LRUItem) :
    ∀ st : Store, i ∈ l →
      getItem (removeLRUItems st l) i.key = none ∧
      getItem (removeLRUItems st l) ("__meta_" ++ i.key) = none := by
  induction l with
  | nil =>
    intro st h
    exact absurd h (List.not_mem_nil i)
  | cons j t ih =>
    intro st h
    rcases List.mem_cons.mp h with rfl | hm
    · constructor
      · refine getItem_removeLRUItems_none t _ _ ?_
        rw [getItem_removeItem_ne _ _ _ (Ne.symm (metaKey_ne i.key))]
        exact getItem_removeItem_self st i.key
      · exact getItem_removeLRUItems_none t _ _ (getItem_removeItem_self _ _)
    · exact ih _ hm

theorem getItem_removeLRUItems_not_mem (l : List LRUItem) (k : String) :
    ∀ st : Store, (∀ i ∈ l, k ≠ i.key ∧ k ≠ "__meta_" ++ i.key) →
      getItem (removeLRUItems st l) k = getItem st k := by
  induction l with
  | nil =>
    intro st _
    rfl
  | cons j t ih =>
    intro st h
    have hj := h j (List.mem_cons_self j t)
    have : getItem (removeItem (removeItem st j.key) ("__meta_" ++ j.key)) k
        = getItem st k := by
      rw [getItem_removeItem_ne _ _ _ hj.2, getItem_removeItem_ne _ _ _ hj.1]
    rw [show removeLRUItems st (j :: t)
        = removeLRUItems (removeItem (removeItem st j.key) ("__meta_" ++ j.key)) t from rfl]
    rw [ih _ (fun i hi => h i (List.mem_cons_of_mem j hi)), this]

theorem collectItems_lastAccessed {now : Int} {st : Store}
    (hmeta : ∀ k t, metaLastAccessed st k = some t → t ≤ now) :
    ∀ i ∈ collectItems now st,
      i.lastAccessed ≤ now ∧
      (metaLastAccessed st i.key = none → i.lastAccessed = now) := by
  intro i hi
  unfold collectItems at hi
  rw [List.mem_filterMap] at hi
  obtain ⟨e, _, hf⟩ := hi
  split at hf
  · exact Option.noConfusion hf
  · cases hf
    rcases hm : metaLastAccessed st e.1 with _ | t
    · simp [hm]
    · refine ⟨?_, ?_⟩
      · simpa [hm] using hmeta e.1 t hm
      · intro hn
        exact Option.noConfusion hn

theorem clearLRUItems_eq (need : Nat) (now : Int) (st : Store) (hneed : 0 < need) :
    clearLRUItems need now st =
      (sumSizes (lruTaken need (sortedLRU now st)),
       removeLRUItems st (lruTaken need (sortedLRU now st))) := by
  unfold clearLRUItems
  rw [lruLoop_eq need (sortedLRU now st) 0 st hneed]
  simp

/-- C7: `clearLRUItems` removes entries in ascending order of recorded
`lastAccessed` (each with its `__meta_` sibling and nothing else), stops as
soon as the freed bytes reach the requested amount (default `200 * 1024`),
returns the total bytes freed, and an entry with no valid metadata is
treated as accessed now, which under past-only recorded times makes it
evicted last. -/
theorem c7_clear_lru (need : Nat) (now : Int) (st : Store) (hneed : 0 < need) :
    ClearLRUSpec need now st := by
  have h3 := clearLRUItems_eq need now st hneed
  refine ⟨?_, lruTaken_sublist _ need, h3, ?_, ?_, lruTaken_stop _ need hneed,
    lruTaken_exhaust _ need, rfl, ?_⟩
  · exact List.sorted_insertionSort lruLe (collectItems now st)
  · intro i hi
    rw [h3]
    exact getItem_removeLRUItems_mem _ i st hi
  · intro k hk
    rw [h3]
    exact getItem_removeLRUItems_not_mem _ k st hk
  · intro hmeta i hi
    unfold sortedLRU at hi
    exact collectItems_lastAccessed hmeta i
      ((List.perm_insertionSort lruLe (collectItems now st)).mem_iff.mp hi)

theorem c7_witness : ClearLRUSpec 20 5 c7Store :=
  c7_clear_lru 20 5 c7Store (by decide)

theorem lruTaken_unprotected (l : List LRUItem) :
    ∀ need : Nat, ∀ i ∈ lruTaken need l, isProtectedKey i.key = false := by
  induction l with
  | nil =>
    intro need i hi
    exact absurd hi (List.not_mem_nil i)
  | cons j rest ih =>
    intro need i hi
    simp only [lruTaken] at hi
    by_cases hp : isProtectedKey j.key
    · rw [if_pos hp] at hi
      exact ih need i hi
    · rw [Bool.not_eq_true] at hp
      have hnp : ¬(isProtectedKey j.key = true) := by simp [hp]
      rw [if_neg hnp] at hi
      rcases List.mem_cons.mp hi with rfl | hm
      · exact hp
      · by_cases hs : need ≤ j.size
        · rw [if_pos hs] at hm
          exact absurd hm (List.not_mem_nil i)
        · rw [if_neg hs] at hm
          exact ih (need - j.size) i hm

theorem listStartsWith_append (xs ys : List Char) :
    listStartsWith (xs ++ ys) xs = true := by
  induction xs with
  | nil => simp [listStartsWith]
  | cons c cs ih => simp [listStartsWith, ih]

theorem safeSetItem_store (st : Store) (k : String) (j : Json) (now : Int)
    (hk : ¬(k = "")) :
    (safeSetItem st k j now true).2 = updateMetadata (setItem st k (storedText j)) k now := by
  unfold safeSetItem
  rw [if_neg hk]
  simp only [storedText, Bool.true_and, decide_eq_true_eq]

theorem getItem_safeSetItem_other (st : Store) (k : String) (j : Json) (now : Int)
    (q : String) (hk : ¬(k = "")) (h1 : q ≠ k) (h2 : q ≠ "__meta_" ++ k) :
    getItem (safeSetItem st k j now true).2 q = getItem st q := by
  rw [safeSetItem_store st k j now hk]
  unfold updateMetadata
  rw [getItem_setItem_ne _ _ _ _ h2, getItem_setItem_ne _ _ _ _ h1]

theorem getItem_safeSetItem_self_key (st : Store) (k : String) (j : Json) (now : Int)
    (hk : ¬(k = "")) :
    getItem (safeSetItem st k j now true).2 k = some (storedText j) := by
  rw [safeSetItem_store st k j now hk]
  unfold updateMetadata
  rw [getItem_setItem_ne _ _ _ _ (Ne.symm (metaKey_ne k))]
  exact getItem_setItem_self _ _ _

theorem singleton_evicted (k v : String) (need : Nat) (now : Int)
    (hneed : 0 < need) (hp : isProtectedKey k = false)
    (hks : k.startsWith "__meta_" = false) :
    getItem (clearLRUItems need now [(k, v)]).2 k = none := by
  have hmk : getItem [(k, v)] ("__meta_" ++ k) = none := by
    simp [getItem, Ne.symm (metaKey_ne k)]
  have hml : metaLastAccessed [(k, v)] k = none := by
    unfold metaLastAccessed
    rw [hmk]
  have hcol : collectItems now [(k, v)] = [⟨k, now, v.length + k.length⟩] := by
    unfold collectItems
    rw [List.filterMap_cons, List.filterMap_nil]
    simp only [hks, hml, Option.getD_none, Bool.false_eq_true, if_false]
  have hsort : sortedLRU now [(k, v)] = [⟨k, now, v.length + k.length⟩] := by
    unfold sortedLRU
    rw [hcol]
    rfl
  have htk : lruTaken need (sortedLRU now [(k, v)]) = [⟨k, now, v.length + k.length⟩] := by
    rw [hsort]
    simp [lruTaken, hp]
  rw [clearLRUItems_eq need now _ hneed, htk]
  exact (getItem_removeLRUItems_mem _ _ _ (List.mem_cons_self _ _)).1

/-- C9 (amended): `clearLRUItems` never evicts a key containing
`user_settings` or `auth_token` and any other (non-`__meta_`) key is
eligible for removal; `clearAllCache` with `preserveUserData = true`
re-stores `user_settings` and `auth_token` after clearing both storages
only when the stored value reads back truthy — a falsy or unreadable
stored value is lost. -/
theorem c9_protected_keys (need : Nat) (now : Int) (st lcl ssn : Store)
    (k v : String) (hneed : 0 < need) :
    ClearProtectedSpec need now st lcl ssn k v := by
  refine ⟨lruTaken_unprotected _ need, ?_, ?_, ?_, ?_, ?_, rfl, ?_⟩
  · intro q hq hqm
    rw [clearLRUItems_eq need now st hneed]
    refine getItem_removeLRUItems_not_mem _ q st ?_
    intro i hi
    have hup := lruTaken_unprotected _ need i hi
    constructor
    · intro he
      rw [← he, hq] at hup
      exact Bool.noConfusion hup
    · intro he
      have hd : q.data = ("__meta_" : String).data ++ i.key.data := by
        rw [he, String.data_append]
      rw [hd, listStartsWith_append] at hqm
      exact Bool.noConfusion hqm
  · intro j hjs hjt
    rcases ha : safeGetItem lcl "auth_token" with _ | j2
    · simp only [clearAllCache, hjs, ha, hjt, if_true]
      exact getItem_safeSetItem_self_key _ _ _ _ (by decide)
    · by_cases ht2 : jsTruthy j2
      · simp only [clearAllCache, hjs, ha, hjt, ht2, if_true]
        rw [getItem_safeSetItem_other _ _ _ _ _ (by decide) (by decide) (by decide)]
        exact getItem_safeSetItem_self_key _ _ _ _ (by decide)
      · rw [Bool.not_eq_true] at ht2
        simp only [clearAllCache, hjs, ha, hjt, ht2, if_true, Bool.false_eq_true, if_false]
        exact getItem_safeSetItem_self_key _ _ _ _ (by decide)
  · intro j hja hjt
    rcases hu : safeGetItem lcl "user_settings" with _ | j1
    · simp only [clearAllCache, hja, hu, hjt, if_true]
      exact getItem_safeSetItem_self_key _ _ _ _ (by decide)
    · by_cases ht1 : jsTruthy j1
      · simp only [clearAllCache, hja, hu, hjt, ht1, if_true]
        exact getItem_safeSetItem_self_key _ _ _ _ (by decide)
      · rw [Bool.not_eq_true] at ht1
        simp only [clearAllCache, hja, hu, hjt, ht1, if_true, Bool.false_eq_true, if_false]
        exact getItem_safeSetItem_self_key _ _ _ _ (by decide)
  · intro j hjs hjt
    rcases ha : safeGetItem lcl "auth_token" with _ | j2
    · simp only [clearAllCache, hjs, ha, hjt, Bool.false_eq_true, if_false]
      rfl
    · by_cases ht2 : jsTruthy j2
      · simp only [clearAllCache, hjs, ha, hjt, ht2, if_true, Bool.false_eq_true, if_false]
        rw [getItem_safeSetItem_other _ _ _ _ _ (by decide) (by decide) (by decide)]
        rfl
      · rw [Bool.not_eq_true] at ht2
        simp only [clearAllCache, hjs, ha, hjt, ht2, Bool.false_eq_true, if_false]
        rfl
  · intro hjs
    rcases ha : safeGetItem lcl "auth_token" with _ | j2
    · simp only [clearAllCache, hjs, ha]
      rfl
    · by_cases ht2 : jsTruthy j2
      · simp only [clearAllCache, hjs, ha, ht2, if_true]
        rw [getItem_safeSetItem_other _ _ _ _ _ (by decide) (by decide) (by decide)]
        rfl
      · rw [Bool.not_eq_true] at ht2
        simp only [clearAllCache, hjs, ha, ht2, Bool.false_eq_true, if_false]
        rfl
  · intro hp hks
    exact singleton_evicted k v need now hneed hp hks

theorem c9_witness :
    ClearProtectedSpec 20 5 [("cachedA", "aa"), ("user_settings", "x")]
      [("user_settings", "\x7b\"a\":1\x7d")] [] "cachedX" "vv" :=
  c9_protected_keys 20 5 [("cachedA", "aa"), ("user_settings", "x")]
    [("user_settings", "\x7b\"a\":1\x7d")] [] "cachedX" "vv" (by decide)

/-- C9 counterexample: `user_settings` holds the stored (falsy) value
`"false"`, and `clearAllCache` with `preserveUserData = true` loses it
instead of re-storing it: the truthiness gate on the read-back value drops
falsy settings. -/
theorem c9_counterexample :
    getItem [("user_settings", "false")] "user_settings" = some "false" ∧
    clearAllCache true 0 [("user_settings", "false")] [] = (true, [], []) :=
  ⟨rfl, rfl⟩

theorem c2_witness : (fetchMoviesStep [] 1000 1 none).fetched = true :=
  (c2_cache_freshness [] 1000 1 none "" "" 0).2.1 rfl

end RwMovies
